import Mathlib

/-!
Verification development for the GPay-Transaction-Intelligence RAG engine
(`src/rag/`): a shallow embedding of the retrieval, indexing, caching,
structured-query-interception and orchestration code, together with theorems
settling the specification claims.

Modelling conventions:
* Python strings are modelled as `List Char` (`Str`); ASCII character classes
  are used for `\d`, `\w`, `\s`, matching the ASCII queries the system handles.
* Floating point scores and amounts are modelled as rationals (`ℚ`); the
  claims under scrutiny only compare, add and order these values.
* External collaborators (hashlib's md5, the sentence-transformer embedder,
  faiss' `normalize_L2` and `index.search`, fitz PDF text extraction, the
  cross-encoder and the LLM HTTP client) are parameters of the model, per the
  spec's §6 external-interface contract.
* numpy `.npz` cache files on disk are modelled as either a well-formed
  (embedding matrix, docs) pair or `malformed` bytes on which `np.load`
  raises.
-/

namespace GPayRag

/-- Python strings, modelled as lists of characters. -/
abbrev Str := List Char

/-- ASCII model of the regex class `\w` (word character). -/
def isWordChar (c : Char) : Bool := c.isAlphanum || c == '_'

/-- ASCII model of the regex class `\s`. -/
def isSpaceChar (c : Char) : Bool := c.isWhitespace

/-- Python `str.lower()` (ASCII). -/
def lowerStr (s : Str) : Str := s.map Char.toLower

/-- Python `str.upper()` (ASCII). -/
def upperStr (s : Str) : Str := s.map Char.toUpper

/-- Python `str.title()` for a single word: first char upper, rest lower. -/
def titleStr (s : Str) : Str :=
  match s with
  | [] => []
  | c :: cs => c.toUpper :: cs.map Char.toLower

/-- Python substring containment `needle in hay`. -/
def listSubstr (needle hay : Str) : Bool :=
  (hay.tails).any (fun t => needle.isPrefixOf t)

/-- Python `str.strip()`: drop whitespace from both ends. -/
def stripStr (s : Str) : Str :=
  ((s.dropWhile isSpaceChar).reverse.dropWhile isSpaceChar).reverse

/-- Parse a nonempty all-digit string as a natural number (Python `int(s)`
    restricted to the digit strings the regexes produce). -/
def digitsToNat? (s : Str) : Option Nat :=
  if s.isEmpty || s.any (fun c => !c.isDigit) then none
  else some (s.foldl (fun n c => 10 * n + (c.toNat - '0'.toNat)) 0)

/-- Python `float(s)` on the comma-stripped amount strings the amount regex
    produces: digits, optionally a dot and more digits, at least one digit in
    total; anything else raises (returns `none`). -/
def pyFloat? (s : Str) : Option ℚ :=
  let intPart := s.takeWhile Char.isDigit
  let rest := s.drop intPart.length
  let natVal : Str → Nat := fun t => t.foldl (fun n c => 10 * n + (c.toNat - '0'.toNat)) 0
  match rest with
  | [] => if intPart.isEmpty then none else some (mkRat (natVal intPart) 1)
  | '.' :: fracPart =>
    if fracPart.all Char.isDigit ∧ ¬(intPart.isEmpty ∧ fracPart.isEmpty) then
      some (mkRat (natVal intPart * 10 ^ fracPart.length + natVal fracPart)
        (10 ^ fracPart.length))
    else none
  | _ => none

/-! ### Regex models (`rag_retrieval.py` and `rag_pipeline.py` patterns)

Each Python `re.findall` / `re.search` call on a specific pattern is modelled
by a character-level scanner with the same leftmost, greedy, non-overlapping
semantics for that pattern. -/

/-- Word-boundary test against the character preceding the match position. -/
def boundaryOk (prev : Option Char) : Bool :=
  match prev with
  | none => true
  | some c => !isWordChar c

/-- Match attempt for `\b\d{12}\b` at the head of `cs`. -/
def upiAt (prev : Option Char) (cs : Str) : Bool :=
  boundaryOk prev
    && (cs.take 12).length == 12
    && (cs.take 12).all Char.isDigit
    && (match cs[12]? with
        | none => true
        | some c => !isWordChar c)

/-- Fuel-driven scanner for `re.findall(r'\b\d{12}\b', s)`. -/
def upiGo : Nat → Option Char → Str → List Str
  | 0, _, _ => []
  | _ + 1, _, [] => []
  | fuel + 1, prev, c :: rest =>
    if upiAt prev (c :: rest) then
      (c :: rest).take 12 :: upiGo fuel ((c :: rest).take 12).getLast? ((c :: rest).drop 12)
    else
      upiGo fuel (some c) rest

/-- The list of exactly-12-digit tokens of the query:
    `re.findall(r'\b\d{12}\b', query)`. -/
def upiFindAll (s : Str) : List Str := upiGo s.length none s

/-- Greedy match of `[\d,]+\.?\d*` (the capture group of the amount pattern)
    at the head of `xs`; returns the captured group. -/
def amountCore (xs : Str) : Option Str :=
  let run1 := xs.takeWhile (fun c => c.isDigit || c == ',')
  if run1.isEmpty then none
  else
    let rest1 := xs.drop run1.length
    match rest1 with
    | '.' :: rest2 => some (run1 ++ ['.'] ++ rest2.takeWhile Char.isDigit)
    | _ => some run1

/-- Match attempt for `₹?\s?([\d,]+\.?\d*)` at the head of `cs`: returns the
    captured group and the total number of characters consumed by the whole
    match, following the backtracking order of the Python engine. -/
def amountAt (cs : Str) : Option (Str × Nat) :=
  match cs with
  | [] => none
  | '₹' :: r1 =>
    (match r1 with
     | w :: r2 =>
       if isSpaceChar w then
         match amountCore r2 with
         | some g => some (g, 2 + g.length)
         | none => (amountCore r1).map (fun g => (g, 1 + g.length))
       else (amountCore r1).map (fun g => (g, 1 + g.length))
     | [] => none)
  | w :: r1 =>
    if isSpaceChar w then
      match amountCore r1 with
      | some g => some (g, 1 + g.length)
      | none => (amountCore cs).map (fun g => (g, g.length))
    else (amountCore cs).map (fun g => (g, g.length))

/-- Fuel-driven scanner for `re.findall(r'₹?\s?([\d,]+\.?\d*)', s)`. -/
def amountGo : Nat → Str → List Str
  | 0, _ => []
  | _ + 1, [] => []
  | fuel + 1, c :: rest =>
    match amountAt (c :: rest) with
    | some (g, consumed) => g :: amountGo fuel ((c :: rest).drop consumed)
    | none => amountGo fuel rest

/-- The amount-like tokens of the query:
    `re.findall(r'₹?\s?([\d,]+\.?\d*)', query)` (capture groups). -/
def amountFindAll (s : Str) : List Str := amountGo s.length s

/-- Match attempt for `\b[A-Z][a-zA-Z0-9]*\b` at the head of `cs`. -/
def keywordAt (prev : Option Char) (cs : Str) : Option Str :=
  match cs with
  | [] => none
  | c :: _ =>
    if boundaryOk prev && c.isUpper then
      let run := cs.takeWhile Char.isAlphanum
      match cs[run.length]? with
      | none => some run
      | some nxt => if isWordChar nxt then none else some run
    else none

/-- Fuel-driven scanner for `re.findall(r'\b[A-Z][a-zA-Z0-9]*\b', s)`. -/
def keywordGo : Nat → Option Char → Str → List Str
  | 0, _, _ => []
  | _ + 1, _, [] => []
  | fuel + 1, prev, c :: rest =>
    match keywordAt prev (c :: rest) with
    | some run => run :: keywordGo fuel run.getLast? ((c :: rest).drop run.length)
    | none => keywordGo fuel (some c) rest

/-- The capitalized tokens of the query:
    `re.findall(r'\b[A-Z][a-zA-Z0-9]*\b', query)`. -/
def keywordFindAll (s : Str) : List Str := keywordGo s.length none s

/-- Lower-case three-letter month prefixes, in `month_map` order. -/
def monthPrefixes : List Str :=
  [['j','a','n'], ['f','e','b'], ['m','a','r'], ['a','p','r'], ['m','a','y'],
   ['j','u','n'], ['j','u','l'], ['a','u','g'], ['s','e','p'], ['o','c','t'],
   ['n','o','v'], ['d','e','c']]

/-- Case-insensitive match of the month alternation `(Jan|...|Dec)` at the
    head of `xs`; returns the three matched characters in original case. -/
def monthAlt (xs : Str) : Option Str :=
  let three := xs.take 3
  if three.length == 3 && monthPrefixes.contains (lowerStr three) then some three
  else none

/-- Match attempt for `\b(\d{1,2})\s*(Jan|...|Dec)[a-z]*` (IGNORECASE) at the
    head of `cs`: greedy two-digit day first, then one digit. -/
def dayMonthAt (prev : Option Char) (cs : Str) : Option (Str × Str) :=
  if boundaryOk prev then
    let afterDigits : Str → Option Str := fun xs => monthAlt (xs.dropWhile isSpaceChar)
    match cs with
    | d1 :: d2 :: rest =>
      if d1.isDigit && d2.isDigit then
        match afterDigits rest with
        | some m => some ([d1, d2], m)
        | none =>
          if d1.isDigit then (afterDigits (d2 :: rest)).map (fun m => ([d1], m))
          else none
      else if d1.isDigit then (afterDigits (d2 :: rest)).map (fun m => ([d1], m))
      else none
    | [d1] => if d1.isDigit then (afterDigits []).map (fun m => ([d1], m)) else none
    | [] => none
  else none

/-- Model of `re.search(r'\b(\d{1,2})\s*(Jan|...|Dec)[a-z]*', q, re.IGNORECASE)`:
    leftmost match, returning the (day, month) capture groups. -/
def searchDayMonth (s : Str) : Option (Str × Str) :=
  go none s
where
  go : Option Char → Str → Option (Str × Str)
    | _, [] => none
    | prev, c :: rest =>
      match dayMonthAt prev (c :: rest) with
      | some g => some g
      | none => go (some c) rest

/-- Match attempt for `\b(Jan|...|Dec)[a-z]*\s*,?\s*(\d{4})\b` (IGNORECASE)
    at the head of `cs`. -/
def monthYearAt (prev : Option Char) (cs : Str) : Option (Str × Str) :=
  if boundaryOk prev then
    match monthAlt cs with
    | none => none
    | some m =>
      let r1 := (cs.drop 3).dropWhile Char.isAlpha
      let r2 := r1.dropWhile isSpaceChar
      let r3 := match r2 with
                | ',' :: t => t.dropWhile isSpaceChar
                | _ => r2
      let four := r3.take 4
      if four.length == 4 && four.all Char.isDigit then
        match r3[4]? with
        | none => some (m, four)
        | some nxt => if isWordChar nxt then none else some (m, four)
      else none
  else none

/-- Model of `re.search` for the month-year pattern, leftmost match. -/
def searchMonthYear (s : Str) : Option (Str × Str) :=
  go none s
where
  go : Option Char → Str → Option (Str × Str)
    | _, [] => none
    | prev, c :: rest =>
      match monthYearAt prev (c :: rest) with
      | some g => some g
      | none => go (some c) rest

/-- Match attempt for `\b(Jan|...|Dec)[a-z]*\b` (IGNORECASE) at the head. -/
def monthOnlyAt (prev : Option Char) (cs : Str) : Option Str :=
  if boundaryOk prev then
    match monthAlt cs with
    | none => none
    | some m =>
      let run := (cs.drop 3).takeWhile Char.isAlpha
      match (cs.drop 3)[run.length]? with
      | none => some m
      | some nxt => if isWordChar nxt then none else some m
  else none

/-- Model of `re.search` for the month-only pattern, leftmost match. -/
def searchMonthOnly (s : Str) : Option Str :=
  go none s
where
  go : Option Char → Str → Option Str
    | _, [] => none
    | prev, c :: rest =>
      match monthOnlyAt prev (c :: rest) with
      | some g => some g
      | none => go (some c) rest

/-! ### Hybrid retrieval (`rag_retrieval.py`) -/

/-- `TOP_K` from `rag_config.py`. -/
def TOP_K : Nat := 25

/-- One retrieved candidate: the dict
    `{"text": ..., "cosine_score": ..., "type": ...}`. -/
structure Candidate where
  text : Str
  cosine_score : ℚ
  ctype : String
deriving DecidableEq, Repr

/-- Python list indexing `xs[i]`, with negative-index wraparound; `none`
    models an `IndexError`. -/
def pyGet? {α : Type} (xs : List α) (i : Int) : Option α :=
  if 0 ≤ i then xs[i.toNat]?
  else if 0 ≤ i + xs.length then xs[(i + xs.length).toNat]?
  else none

/-- The semantic-search loop of `retrieve`: for each `(doc_idx, score)` of the
    faiss result, keep `docs[doc_idx]` when `doc_idx < len(docs)`; `none`
    models a raised `IndexError`. -/
def semanticLoop (docs : List Str) : List (Int × ℚ) → Option (List Candidate)
  | [] => some []
  | (di, s) :: rest =>
    if di < (docs.length : Int) then
      match pyGet? docs di with
      | none => none
      | some t =>
        match semanticLoop docs rest with
        | none => none
        | some l => some ({ text := t, cosine_score := s, ctype := "semantic" } :: l)
    else semanticLoop docs rest

/-- Append a tagged match for doc `d` unless a candidate with the same text is
    already present (`is_duplicate`). -/
def addMatch (tag : String) (score : ℚ) (d : Str) (acc : List Candidate) : List Candidate :=
  if acc.any (fun m => m.text == d) then acc
  else acc ++ [{ text := d, cosine_score := score, ctype := tag }]

/-- Section 2a of `retrieve`: exact UPI-id matches. -/
def upiSection (upis : List Str) (docs : List Str) (acc : List Candidate) : List Candidate :=
  if upis.isEmpty then acc
  else docs.foldl
    (fun acc d => if upis.any (fun u => listSubstr u d) then addMatch "exact_id_match" 1 d acc else acc)
    acc

/-- Section 2b of `retrieve`: amount matches; each token is comma-stripped,
    must parse as a positive float, and is then matched as a substring. -/
def amountSection (amts : List Str) (docs : List Str) (acc : List Candidate) : List Candidate :=
  amts.foldl
    (fun acc a =>
      let clean := a.filter (fun c => c ≠ ',')
      match pyFloat? clean with
      | some v =>
        if 0 < v then
          docs.foldl
            (fun acc d => if listSubstr clean d then addMatch "amount_match" (mkRat 19 20) d acc else acc)
            acc
        else acc
      | none => acc)
    acc

/-- The keyword stoplist of section 2c (`kw.upper() in [...]`). -/
def keywordStoplist : List Str :=
  [['U','P','I'], ['O','C','T'], ['N','O','V'], ['D','E','C'], ['J','A','N'],
   ['F','E','B'], ['M','A','R'], ['A','P','R'], ['M','A','Y'], ['J','U','N'],
   ['J','U','L'], ['A','U','G'], ['S','E','P']]

/-- Eligibility test of section 2c: length at least 3 and not stoplisted. -/
def keywordEligible (kw : Str) : Bool :=
  !(kw.length < 3) && !(keywordStoplist.contains (upperStr kw))

/-- Section 2c of `retrieve`: capitalized-keyword matches. -/
def keywordSection (kws : List Str) (docs : List Str) (acc : List Candidate) : List Candidate :=
  if kws.isEmpty then acc
  else docs.foldl
    (fun acc d =>
      if kws.any (fun kw => keywordEligible kw && listSubstr kw d) then
        addMatch "keyword_match" (mkRat 9 10) d acc
      else acc)
    acc

/-- The final merge of `retrieve`: keep the first candidate for each text
    (`seen_texts`); `seen` accumulates the texts already emitted. -/
def dedupFirst : List Candidate → List Str → List Candidate
  | [], _ => []
  | c :: cs, seen =>
    if seen.contains c.text then dedupFirst cs seen
    else c :: dedupFirst cs (c.text :: seen)

/-- `retrieve(query, index, docs)`, with the faiss search result row
    (`zip(idx[0], scores[0])`) supplied by the external index; `none` models a
    raised exception. -/
def retrievePy (searchRow : List (Int × ℚ)) (query : Str) (docs : List Str) :
    Option (List Candidate) :=
  match semanticLoop docs searchRow with
  | none => none
  | some semanticResults =>
    let e1 := upiSection (upiFindAll query) docs []
    let e2 := amountSection (amountFindAll query) docs e1
    let e3 := keywordSection (keywordFindAll query) docs e2
    some ((dedupFirst (e3 ++ semanticResults) []).take (TOP_K + 3))

/-! ### Embedding cache (`rag_embeddings.py`) and indexer (`rag_indexing.py`) -/

/-- Raw bytes of a file. -/
abbrev Bytes := List Nat

/-- The on-disk world outside the cache directory: maps a path to the bytes of
    the file stored there, `none` when no such file exists. -/
abbrev FileSystem := String → Option Bytes

/-- One `embed_cache/pdf_<hash>.npz` file: either a well-formed npz holding
    the embedding matrix and the parallel chunk list, or malformed bytes on
    which `np.load` (or the subsequent key access) raises. -/
inductive CacheFile where
  | good (embeddings : List (List ℚ)) (docs : List Str)
  | malformed
deriving DecidableEq

/-- The cache directory, keyed by content-hash id. -/
abbrev CacheState := String → Option CacheFile

/-- Exceptions the embedded code can raise. -/
inductive PyErr where
  | fileNotFound (path : String)
  | npLoadFailure (hashId : String)
  | indexError
deriving DecidableEq, Repr

/-- External collaborators of the core (spec §6), supplied as parameters:
    hashlib's md5 hexdigest, the embedding model (`encode` and its output
    dimensionality `dim`), faiss' in-place `normalize_L2`, and fitz' PDF text
    extraction. -/
structure Externals where
  md5 : Bytes → String
  dim : Nat
  encode : List Str → List (List ℚ)
  normL2 : List (List ℚ) → List (List ℚ)
  readPdf : Bytes → Str

/-- `file_hash(path)`: md5 of the file's bytes; raises `FileNotFoundError`
    when no file exists at `path`. -/
def fileHash (e : Externals) (fs : FileSystem) (path : String) : Except PyErr String :=
  match fs path with
  | none => .error (.fileNotFound path)
  | some b => .ok (e.md5 b)

/-- `load_cached_embeddings(hash_id)`: `(None, None)` on a missing file
    (modelled as `.ok none`), the stored pair when the file is well formed,
    and a raised exception when the file exists but is malformed. -/
def loadCachedEmbeddings (cache : CacheState) (hashId : String) :
    Except PyErr (Option (List (List ℚ) × List Str)) :=
  match cache hashId with
  | none => .ok none
  | some .malformed => .error (.npLoadFailure hashId)
  | some (.good m d) => .ok (some (m, d))

/-- `save_embeddings_to_cache`: overwrite the entry for `hashId`. -/
def saveEmbeddingsToCache (cache : CacheState) (hashId : String)
    (embeddings : List (List ℚ)) (docs : List Str) : CacheState :=
  fun h => if h = hashId then some (.good embeddings docs) else cache h

/-- numpy `arr.shape[1]` of a matrix stored as its list of rows (a cached
    matrix written by this code is never empty, since chunks are checked to be
    nonempty before indexing). -/
def npShape1 (m : List (List ℚ)) : Option Nat := m.head?.map List.length

/-- The dict returned by `build_index` (the faiss index is represented by the
    matrix of vectors it was built from). -/
structure BuildResult where
  indexVecs : List (List ℚ)
  docs : List Str
  status : String
  chunk_count : Nat
  file_hash : String
deriving DecidableEq

/-- `build_index(file_path, chunks)`: hash the source file, try the cache,
    reuse it only when the stored dimensionality equals the embedder's, else
    generate fresh embeddings and write them through to the cache. -/
def buildIndex (e : Externals) (fs : FileSystem) (cache : CacheState)
    (path : String) (chunks : List Str) : Except PyErr (BuildResult × CacheState) :=
  match fileHash e fs path with
  | .error er => .error er
  | .ok h =>
    match loadCachedEmbeddings cache h with
    | .error er => .error er
    | .ok (some (m, cachedDocs)) =>
      if npShape1 m = some e.dim then
        .ok ({ indexVecs := e.normL2 m, docs := cachedDocs, status := "cache_hit",
               chunk_count := cachedDocs.length, file_hash := h }, cache)
      else
        let emb := e.normL2 (e.encode chunks)
        .ok ({ indexVecs := emb, docs := chunks, status := "generated",
               chunk_count := chunks.length, file_hash := h },
             saveEmbeddingsToCache cache h emb chunks)
    | .ok none =>
      let emb := e.normL2 (e.encode chunks)
      .ok ({ indexVecs := emb, docs := chunks, status := "generated",
             chunk_count := chunks.length, file_hash := h },
           saveEmbeddingsToCache cache h emb chunks)

/-! ### Processing (`rag_processing.py`) and the transaction data model -/

/-- `chunk_text(text, size=800, overlap=100)`: windows of `size` characters
    advancing by `size - overlap`, kept when the stripped window is longer
    than 200 characters. -/
def chunkText (text : Str) (size : Nat := 800) (overlap : Nat := 100) : List Str :=
  let step := size - overlap
  (List.range ((text.length + step - 1) / step)).filterMap
    (fun k =>
      let chunk := stripStr ((text.drop (k * step)).take size)
      if chunk.length > 200 then some chunk else none)

/-- A resolved pandas timestamp (year, month, day); the `time` component is
    not consulted by any modelled operation. -/
structure PyDate where
  year : Nat
  month : Nat
  day : Nat
deriving DecidableEq, Repr

/-- One row of the structured transaction table. `date` is the value after
    `pd.to_datetime(..., errors="coerce")`: `none` models `NaT`. `category`
    is `none` for NaN. -/
structure TxnRow where
  date : Option PyDate
  time : Str
  description : Str
  amount : ℚ
  ttype : Str
  category : Option Str
  upi_id : Str
deriving DecidableEq

/-- Rendering of a date for a chunk (string formatting abstracted; claims
    never inspect the rendered text of a transaction chunk). -/
def renderOptDate (d : Option PyDate) : Str :=
  match d with
  | none => ['N','/','A']
  | some dt => (toString dt.year ++ "-" ++ toString dt.month ++ "-" ++ toString dt.day).toList

/-- `dataframe_to_chunks(df)`: one deterministic multi-field rendering per
    row, in row order. -/
def dataframeToChunks (rows : List TxnRow) : List Str :=
  rows.map (fun r =>
    stripStr
      (("Date: ".toList) ++ renderOptDate r.date
        ++ ("\nTime: ".toList) ++ r.time
        ++ ("\nDescription: ".toList) ++ r.description
        ++ ("\nAmount: ₹".toList) ++ (toString r.amount).toList
        ++ ("\nType: ".toList) ++ r.ttype
        ++ ("\nCategory: ".toList) ++ (r.category.getD (['N','/','A']))
        ++ ("\nUPI ID: ".toList) ++ r.upi_id))

/-! ### Analytics context and structured-query interceptor (`rag_pipeline.py`) -/

/-- The header line of a structured-query context
    (`f"Found {n} transactions ..."`), kept structured so that the rule that
    produced a result is observable. -/
inductive ContextHeader where
  | dayMonth (n : Nat) (day : Str) (month : Str)
  | monthYear (n : Nat) (month : Str) (year : Str)
  | monthOnly (n : Nat) (month : Str)
  | byCategory (n : Nat) (cat : Str)
  | allTime (n : Nat)
deriving DecidableEq, Repr

/-- The structured content `_generate_analytics_context` interpolates into its
    result string: summary statistics over the full filtered set, the top-5
    category breakdown, the (sorted, possibly truncated) listed rows, and the
    "N more transactions" note. -/
structure AnalyticsContext where
  header : ContextHeader
  total_spent : ℚ
  total_received : ℚ
  net_flow : ℚ
  txn_count : Nat
  top_categories : List (Str × ℚ)
  shown_rows : List TxnRow
  more_note : Option Nat
deriving DecidableEq

/-- First-appearance deduplication of a string list (pandas `unique()`). -/
def dedupStrs : List Str → List Str → List Str
  | [], _ => []
  | c :: cs, seen => if seen.contains c then dedupStrs cs seen else c :: dedupStrs cs (c :: seen)

/-- Insertion of one element into a list sorted by the strict priority
    `before` (stable: an inserted element goes before later equal elements
    exactly when `before` says so). -/
def insertOrd {α : Type} (before : α → α → Bool) (x : α) : List α → List α
  | [] => [x]
  | y :: ys => if before x y then x :: y :: ys else y :: insertOrd before x ys

/-- Comparison sort used to model pandas `sort_values`. -/
def sortOrd {α : Type} (before : α → α → Bool) (l : List α) : List α :=
  l.foldr (insertOrd before) []

/-- Date comparison for `sort_values(by="Date", ascending=False)`:
    `x` sorts at or before `y` in descending order. -/
def dateGE (x y : PyDate) : Bool :=
  if x.year ≠ y.year then Nat.blt y.year x.year
  else if x.month ≠ y.month then Nat.blt y.month x.month
  else Nat.ble y.day x.day

/-- Row ordering for the transaction listing: descending by date, `NaT` last. -/
def rowBefore (a b : TxnRow) : Bool :=
  match a.date, b.date with
  | some x, some y => dateGE x y
  | some _, none => true
  | none, _ => false

/-- Category-total ordering (descending by spend). -/
def catBefore (a b : Str × ℚ) : Bool := decide (b.2 ≤ a.2)

/-- The string literal `"Spent"`. -/
def spentLit : Str := ['S','p','e','n','t']

/-- The string literal `"Received"`. -/
def receivedLit : Str := ['R','e','c','e','i','v','e','d']

/-- `_generate_analytics_context(filtered, context_header)`: exact totals over
    the full filtered set, top-5 spending categories, and a date-descending
    listing capped at 200 rows with a "N more" note when truncated. -/
def generateAnalyticsContext (filtered : List TxnRow) (header : ContextHeader) :
    AnalyticsContext :=
  let spentRows := filtered.filter (fun r => r.ttype == spentLit)
  let total_spent := (spentRows.map (fun r => r.amount)).sum
  let total_received := ((filtered.filter (fun r => r.ttype == receivedLit)).map
    (fun r => r.amount)).sum
  let txn_count := filtered.length
  let cats := dedupStrs (spentRows.filterMap (fun r => r.category)) []
  let catStats := cats.map (fun c =>
    (c, ((spentRows.filter (fun r => r.category == some c)).map (fun r => r.amount)).sum))
  let sorted := sortOrd rowBefore filtered
  let limit := 200
  let truncated := decide (sorted.length > limit)
  { header := header
    total_spent := total_spent
    total_received := total_received
    net_flow := total_received - total_spent
    txn_count := txn_count
    top_categories := (sortOrd catBefore catStats).take 5
    shown_rows := if truncated then sorted.take limit else sorted
    more_note := if truncated then some (txn_count - limit) else none }

/-- `month_map.get(month)` for a title-cased three-letter month name. -/
def monthNum (m : Str) : Option Nat :=
  (monthPrefixes.findIdx? (fun p => p == lowerStr m)).map (fun i => i + 1)

/-- Row filter mask of interceptor rule 1 (`dt.day == target_day` and
    `dt.month == target_month_num`; `NaT` rows never match, and a `None`
    lookup result compares unequal to every value). -/
def dayMonthMask (day mon : Option Nat) (r : TxnRow) : Bool :=
  match r.date, day, mon with
  | some dt, some d, some m => dt.day == d && dt.month == m
  | _, _, _ => false

/-- Row filter mask of interceptor rule 2. -/
def monthYearMask (mon year : Option Nat) (r : TxnRow) : Bool :=
  match r.date, mon, year with
  | some dt, some m, some y => dt.month == m && dt.year == y
  | _, _, _ => false

/-- Row filter mask of interceptor rule 3. -/
def monthMask (mon : Option Nat) (r : TxnRow) : Bool :=
  match r.date, mon with
  | some dt, some m => dt.month == m
  | _, _ => false

/-- The category loop of interceptor rule 4: first known category appearing
    case-insensitively in the question whose filtered set is nonempty. -/
def categoryLoop (rows : List TxnRow) (q : Str) : List Str → Option AnalyticsContext
  | [] => none
  | c :: cs =>
    if listSubstr (lowerStr c) (lowerStr q) then
      let filtered := rows.filter (fun r => r.category == some c)
      if filtered.isEmpty then categoryLoop rows q cs
      else some (generateAnalyticsContext filtered (.byCategory filtered.length c))
    else categoryLoop rows q cs

/-- The aggregate-phrasing keywords of interceptor rule 5. -/
def aggregateKeywords : List Str :=
  ["total spent".toList, "how much spent".toList, "all transactions".toList,
   "overall".toList, "all time".toList]

/-- `query_structured_data(question)`: the structured-query interceptor,
    mirroring the control flow of the source (each date rule returns only when
    its pattern matches and its filtered set is nonempty; otherwise control
    reaches the next rule). -/
def queryStructuredData (gdf : Option (List TxnRow)) (q : Str) : Option AnalyticsContext :=
  match gdf with
  | none => none
  | some rows =>
    if rows.isEmpty then none
    else
      let rule5 : Option AnalyticsContext :=
        if aggregateKeywords.any (fun k => listSubstr k (lowerStr q)) then
          some (generateAnalyticsContext rows (.allTime rows.length))
        else none
      let rule4 : Option AnalyticsContext :=
        match categoryLoop rows q (dedupStrs (rows.filterMap (fun r => r.category)) []) with
        | some ctx => some ctx
        | none => rule5
      let rule3 : Option AnalyticsContext :=
        match searchMonthOnly q with
        | some monS =>
          let month := titleStr (monS.take 3)
          let filtered := rows.filter (monthMask (monthNum month))
          if filtered.isEmpty then rule4
          else some (generateAnalyticsContext filtered (.monthOnly filtered.length month))
        | none => rule4
      let rule2 : Option AnalyticsContext :=
        match searchMonthYear q with
        | some (monS, yearS) =>
          let month := titleStr (monS.take 3)
          let filtered := rows.filter (monthYearMask (monthNum month) (digitsToNat? yearS))
          if filtered.isEmpty then rule3
          else some (generateAnalyticsContext filtered (.monthYear filtered.length month yearS))
        | none => rule3
      match searchDayMonth q with
      | some (dayS, monS) =>
        let month := titleStr (monS.take 3)
        let filtered := rows.filter (dayMonthMask (digitsToNat? dayS) (monthNum month))
        if filtered.isEmpty then rule2
        else some (generateAnalyticsContext filtered (.dayMonth filtered.length dayS month))
      | none => rule2

/-! ### Spec-side rule chain for the interceptor (amended claim C5)

These definitions follow the amended specification words: the five rules are
evaluated in the fixed order day+month, month+year, month-only, category,
generic aggregate, and the first rule whose pattern matches the question AND
whose filtered row set is nonempty wins; a pattern match that filters to zero
rows is skipped. -/

/-- Spec rule 1: day+month. -/
def ruleDayMonth (rows : List TxnRow) (q : Str) : Option AnalyticsContext :=
  match searchDayMonth q with
  | none => none
  | some (dayS, monS) =>
    let month := titleStr (monS.take 3)
    let filtered := rows.filter (dayMonthMask (digitsToNat? dayS) (monthNum month))
    if filtered.isEmpty then none
    else some (generateAnalyticsContext filtered (.dayMonth filtered.length dayS month))

/-- Spec rule 2: month+year. -/
def ruleMonthYear (rows : List TxnRow) (q : Str) : Option AnalyticsContext :=
  match searchMonthYear q with
  | none => none
  | some (monS, yearS) =>
    let month := titleStr (monS.take 3)
    let filtered := rows.filter (monthYearMask (monthNum month) (digitsToNat? yearS))
    if filtered.isEmpty then none
    else some (generateAnalyticsContext filtered (.monthYear filtered.length month yearS))

/-- Spec rule 3: month only. -/
def ruleMonthOnly (rows : List TxnRow) (q : Str) : Option AnalyticsContext :=
  match searchMonthOnly q with
  | none => none
  | some monS =>
    let month := titleStr (monS.take 3)
    let filtered := rows.filter (monthMask (monthNum month))
    if filtered.isEmpty then none
    else some (generateAnalyticsContext filtered (.monthOnly filtered.length month))

/-- Spec rule 4: first known category (in first-appearance order) appearing
    case-insensitively in the question with a nonempty filtered set. -/
def ruleCategory (rows : List TxnRow) (q : Str) : Option AnalyticsContext :=
  (dedupStrs (rows.filterMap (fun r => r.category)) []).findSome?
    (fun c =>
      if listSubstr (lowerStr c) (lowerStr q) then
        let filtered := rows.filter (fun r => r.category == some c)
        if filtered.isEmpty then none
        else some (generateAnalyticsContext filtered (.byCategory filtered.length c))
      else none)

/-- Spec rule 5: generic aggregate phrasing over the whole table. -/
def ruleAggregate (rows : List TxnRow) (q : Str) : Option AnalyticsContext :=
  if aggregateKeywords.any (fun k => listSubstr k (lowerStr q)) then
    some (generateAnalyticsContext rows (.allTime rows.length))
  else none

/-- The fixed rule order of the amended claim. -/
def interceptorRules : List (List TxnRow → Str → Option AnalyticsContext) :=
  [ruleDayMonth, ruleMonthYear, ruleMonthOnly, ruleCategory, ruleAggregate]

/-- The amended interceptor contract: the first rule (in the fixed order)
    producing a nonempty filtered result wins; otherwise no result. -/
def interceptorSpec (gdf : Option (List TxnRow)) (q : Str) : Option AnalyticsContext :=
  match gdf with
  | none => none
  | some rows =>
    if rows.isEmpty then none
    else interceptorRules.findSome? (fun rule => rule rows q)

/-! ### Pipeline orchestrator state and `initialize_rag` (`rag_pipeline.py`) -/

/-- The process-wide mutable state of the orchestrator
    (`DOCS`, `INDEX`, `PDF_READY`, `EMBEDDING_SOURCE`, `GLOBAL_DF`). -/
structure RagState where
  docs : List Str
  index : Option (List (List ℚ))
  pdf_ready : Bool
  embedding_source : String
  global_df : Option (List TxnRow)
deriving DecidableEq

/-- The state at module load, before any `initialize_rag` call. -/
def initialState : RagState :=
  { docs := [], index := none, pdf_ready := false
    embedding_source := "unknown", global_df := none }

/-- The info dict returned by `initialize_rag`, by provenance. -/
inductive InitInfo where
  | ok (r : BuildResult)
  | noChunksFromDf
  | noChunksFromPdf
  | noData
  | errorCaught (er : PyErr)
deriving DecidableEq

/-- Everything `initialize_rag` produces: the `(success, info)` pair it
    returns plus the global state and cache directory after the call. -/
structure InitOutcome where
  success : Bool
  info : InitInfo
  state : RagState
  cache : CacheState

/-- `initialize_rag(file_path, df, source_file)`. A nonempty DataFrame takes
    priority; `GLOBAL_DF` is assigned before indexing, so it survives a caught
    downstream exception; the outer `except` returns a failure result instead
    of raising. -/
def initializeRag (e : Externals) (fs : FileSystem) (cache : CacheState) (st : RagState)
    (file_path : Option String) (df : Option (List TxnRow)) (source_file : Option String) :
    InitOutcome :=
  let dfBranch : List TxnRow → InitOutcome := fun rows =>
    let st1 := { st with global_df := some rows }
    let chunks := dataframeToChunks rows
    if chunks.isEmpty then
      { success := false, info := .noChunksFromDf, state := st1, cache := cache }
    else
      let key := match source_file with
                 | some s => if s = "" then "df_source" else s
                 | none => "df_source"
      match buildIndex e fs cache key chunks with
      | .error er => { success := false, info := .errorCaught er, state := st1, cache := cache }
      | .ok (r, cache') =>
        { success := true, info := .ok r
          state := { st1 with index := some r.indexVecs, docs := r.docs
                              embedding_source := "dataframe", pdf_ready := true }
          cache := cache' }
  let pdfBranch : InitOutcome :=
    match file_path with
    | some p =>
      if p = "" then { success := false, info := .noData, state := st, cache := cache }
      else
        match fs p with
        | some bytes =>
          let chunks := chunkText (e.readPdf bytes)
          if chunks.isEmpty then
            { success := false, info := .noChunksFromPdf, state := st, cache := cache }
          else
            match buildIndex e fs cache p chunks with
            | .error er => { success := false, info := .errorCaught er, state := st, cache := cache }
            | .ok (r, cache') =>
              { success := true, info := .ok r
                state := { docs := r.docs, index := some r.indexVecs, pdf_ready := true
                           embedding_source := "generated", global_df := none }
                cache := cache' }
        | none => { success := false, info := .noData, state := st, cache := cache }
    | none => { success := false, info := .noData, state := st, cache := cache }
  match df with
  | some rows => if rows.isEmpty then pdfBranch else dfBranch rows
  | none => pdfBranch

/-! ### Reranking (`rag_reranking.py`) and `query_rag` -/

/-- `FINAL_K` from `rag_config.py`. -/
def FINAL_K : Nat := 15

/-- A candidate with its attached cross-encoder score. -/
structure RankedCandidate where
  cand : Candidate
  rerank_score : ℚ
deriving DecidableEq

/-- Stable insertion for descending sort by rerank score (Python `sorted` with
    `reverse=True` is stable). -/
def insertDesc (x : RankedCandidate) : List RankedCandidate → List RankedCandidate
  | [] => [x]
  | y :: ys =>
    if x.rerank_score ≤ y.rerank_score then y :: insertDesc x ys
    else x :: y :: ys

/-- Descending stable sort of ranked candidates. -/
def sortRanked : List RankedCandidate → List RankedCandidate
  | [] => []
  | x :: xs => insertDesc x (sortRanked xs)

/-- `rerank_docs(query, doc_items)`: score each `(query, text[:1200])` pair
    with the cross-encoder (an external oracle), sort descending, keep
    `FINAL_K`; an empty input passes through without invoking the model. -/
def rerankDocs (cross : Str → ℚ) (items : List Candidate) : List RankedCandidate :=
  if items.isEmpty then []
  else
    (sortRanked (items.map (fun d => { cand := d, rerank_score := cross (d.text.take 1200) }))).take
      FINAL_K

/-- One entry of the `sources` list returned by `query_rag`. -/
inductive Source where
  | structuredDb (ctx : AnalyticsContext)
  | doc (rc : RankedCandidate)
deriving DecidableEq

/-- The `{answer, sources}` dict returned by `query_rag`. -/
structure QueryResult where
  answer : String
  sources : List Source
deriving DecidableEq

/-- Conversion from the character-list model back to `String`. -/
def ofStr (s : Str) : String := String.mk s

/-- Rendering of the context header (quote characters around the category
    name are omitted; no claim inspects them). -/
def renderHeader : ContextHeader → String
  | .dayMonth n d m => "Found " ++ toString n ++ " transactions on " ++ ofStr d ++ " " ++ ofStr m ++ " matching the query."
  | .monthYear n m y => "Found " ++ toString n ++ " transactions in " ++ ofStr m ++ " " ++ ofStr y ++ "."
  | .monthOnly n m => "Found " ++ toString n ++ " transactions in " ++ ofStr m ++ " (All Years)."
  | .byCategory n c => "Found " ++ toString n ++ " transactions for category " ++ ofStr c ++ "."
  | .allTime n => "Found " ++ toString n ++ " transactions (All Time)."

/-- Rendering of the full analytics context handed to the LLM (the line-item
    table rendering is summarised; claims read the structured fields of
    `AnalyticsContext`, not this string). -/
def renderAnalyticsContext (ctx : AnalyticsContext) : String :=
  renderHeader ctx.header
    ++ "\nTotal Spent: " ++ toString ctx.total_spent
    ++ "\nTotal Received: " ++ toString ctx.total_received
    ++ "\nNet Flow: " ++ toString ctx.net_flow
    ++ "\nTransaction Count: " ++ toString ctx.txn_count
    ++ "\nTRANSACTION LIST (" ++ toString ctx.shown_rows.length ++ " shown)"
    ++ (match ctx.more_note with
        | some k => "\n... (and " ++ toString k ++ " more transactions accounted for in Summary)"
        | none => "")

/-- The fixed prompt template of `query_rag` (instruction block summarised;
    no claim inspects the prompt text). -/
def buildPrompt (context q : String) : String :=
  "You are an expert Financial Analyst Assistant analyzing transaction data.\n\nContext Data:\n"
    ++ context ++ "\n\nUser Question: " ++ q ++ "\n\nAnswer:"

/-- Per-query external inputs: the faiss search result row for the embedded
    query, the cross-encoder, and the LLM client. -/
structure QueryOracles where
  searchRow : List (Int × ℚ)
  crossScore : Str → ℚ
  llm : String → String

/-- The fixed not-ready answer of `query_rag`. -/
def notReadyAnswer : String := "⚠️ RAG system not initialized. Please upload a file first."

/-- The fixed empty-retrieval answer of `query_rag`. -/
def noRelevantAnswer : String := "No relevant information found."

/-- Message text of a caught exception. -/
def describePyErr : PyErr → String
  | .fileNotFound p => "No such file or directory: " ++ p
  | .npLoadFailure h => "Failed to interpret cache file pdf_" ++ h ++ ".npz"
  | .indexError => "list index out of range"

/-- The `try` body of `query_rag`: structured interception first, else hybrid
    retrieval, reranking and prompt assembly; `.error` models a raised
    exception reaching the outer handler. -/
def queryRagCore (o : QueryOracles) (st : RagState) (q : Str) : Except PyErr QueryResult :=
  match queryStructuredData st.global_df q with
  | some ctx =>
    .ok { answer := o.llm (buildPrompt (renderAnalyticsContext ctx) (ofStr q))
          sources := [.structuredDb ctx] }
  | none =>
    match retrievePy o.searchRow q st.docs with
    | none => .error .indexError
    | some retrieved =>
      if retrieved.isEmpty then .ok { answer := noRelevantAnswer, sources := [] }
      else
        let reranked := rerankDocs o.crossScore retrieved
        .ok { answer := o.llm (buildPrompt
                (String.intercalate "\n\n" (reranked.map (fun d => ofStr d.cand.text))) (ofStr q))
              sources := reranked.map .doc }

/-- `query_rag(question)`: not-ready guard, then the `try` body with the outer
    exception handler; the global state is never written by a query. -/
def queryRag (o : QueryOracles) (st : RagState) (q : Str) : QueryResult × RagState :=
  if st.pdf_ready = false ∨ st.index = none then
    ({ answer := notReadyAnswer, sources := [] }, st)
  else
    match queryRagCore o st q with
    | .ok r => (r, st)
    | .error er => ({ answer := "Error: " ++ describePyErr er, sources := [] }, st)

end GPayRag

namespace GPayRag

/-! ### Concrete fixtures used by counterexamples and witnesses -/

/-- A sample transaction row (spent, category Food, dated 5 Nov 2024). -/
def sampleRow : TxnRow :=
  { date := some ⟨2024, 11, 5⟩, time := [], description := [], amount := 10
    ttype := spentLit, category := some ("Food".toList), upi_id := [] }

/-- Mock external collaborators for concrete evaluations: an embedder of
    dimensionality 1, identity normalisation, a constant md5, and a PDF reader
    returning 250 characters of text (one chunk's worth). -/
def mockExternals : Externals :=
  { md5 := fun _ => "h", dim := 1, encode := fun cs => cs.map (fun _ => [0])
    normL2 := fun m => m, readPdf := fun _ => List.replicate 250 'a' }

/-- An empty filesystem. -/
def emptyFs : FileSystem := fun _ => none

/-- An empty cache directory. -/
def emptyCache : CacheState := fun _ => none

/-- A filesystem holding one PDF file. -/
def pdfFs : FileSystem := fun p => if p = "doc.pdf" then some [7] else none

/-- A cache directory whose entry for hash id "h" is a malformed file. -/
def malformedCache : CacheState := fun h => if h = "h" then some .malformed else none

/-- Two successive `initialize_rag` calls on the same source file, the second
    starting from the first call's resulting state and cache directory. -/
def initTwice (e : Externals) (fs : FileSystem) (cache : CacheState)
    (st : RagState) (p : String) : InitOutcome × InitOutcome :=
  let out1 := initializeRag e fs cache st (some p) none none
  (out1, initializeRag e fs out1.cache out1.state (some p) none none)

/-- A ready pipeline state holding one document and no structured table. -/
def readyState : RagState :=
  { docs := [['d']], index := some [[0]], pdf_ready := true
    embedding_source := "generated", global_df := none }

end GPayRag

namespace GPayRag

/-! ### Helper lemmas on the indexer and orchestrator -/

/-- On a missing cache entry, `build_index` generates and writes through. -/
theorem buildIndex_cache_none (e : Externals) (fs : FileSystem) (cache : CacheState)
    (path : String) (chunks : List Str) (bytes : Bytes)
    (hfs : fs path = some bytes) (hmiss : cache (e.md5 bytes) = none) :
    buildIndex e fs cache path chunks
      = .ok ({ indexVecs := e.normL2 (e.encode chunks), docs := chunks,
               status := "generated", chunk_count := chunks.length,
               file_hash := e.md5 bytes },
             saveEmbeddingsToCache cache (e.md5 bytes) (e.normL2 (e.encode chunks)) chunks) := by
  simp [buildIndex, fileHash, loadCachedEmbeddings, hfs, hmiss]

/-- On a well-formed cache entry of matching dimensionality, `build_index`
    reuses the cached pair and leaves the cache untouched. -/
theorem buildIndex_cache_hit (e : Externals) (fs : FileSystem) (cache : CacheState)
    (path : String) (chunks : List Str) (bytes : Bytes)
    (m : List (List ℚ)) (docs0 : List Str)
    (hfs : fs path = some bytes) (hgood : cache (e.md5 bytes) = some (.good m docs0))
    (hdim : npShape1 m = some e.dim) :
    buildIndex e fs cache path chunks
      = .ok ({ indexVecs := e.normL2 m, docs := docs0, status := "cache_hit",
               chunk_count := docs0.length, file_hash := e.md5 bytes }, cache) := by
  simp [buildIndex, fileHash, loadCachedEmbeddings, hfs, hgood, hdim]

/-- On a well-formed cache entry of mismatched dimensionality, `build_index`
    regenerates and overwrites the entry. -/
theorem buildIndex_cache_mismatch (e : Externals) (fs : FileSystem) (cache : CacheState)
    (path : String) (chunks : List Str) (bytes : Bytes)
    (m : List (List ℚ)) (docs0 : List Str)
    (hfs : fs path = some bytes) (hgood : cache (e.md5 bytes) = some (.good m docs0))
    (hdim : npShape1 m ≠ some e.dim) :
    buildIndex e fs cache path chunks
      = .ok ({ indexVecs := e.normL2 (e.encode chunks), docs := chunks,
               status := "generated", chunk_count := chunks.length,
               file_hash := e.md5 bytes },
             saveEmbeddingsToCache cache (e.md5 bytes) (e.normL2 (e.encode chunks)) chunks) := by
  simp [buildIndex, fileHash, loadCachedEmbeddings, hfs, hgood, hdim]

/-- On a malformed cache entry, `build_index` raises the load exception. -/
theorem buildIndex_cache_malformed (e : Externals) (fs : FileSystem) (cache : CacheState)
    (path : String) (chunks : List Str) (bytes : Bytes)
    (hfs : fs path = some bytes) (hmal : cache (e.md5 bytes) = some .malformed) :
    buildIndex e fs cache path chunks = .error (.npLoadFailure (e.md5 bytes)) := by
  simp [buildIndex, fileHash, loadCachedEmbeddings, hfs, hmal]

/-- Reduction of the PDF branch of `initialize_rag` on a successful build. -/
theorem initializeRag_pdf_ok (e : Externals) (fs : FileSystem) (cache : CacheState)
    (st : RagState) (p : String) (bytes : Bytes) (r : BuildResult) (c' : CacheState)
    (hp : ¬ p = "") (hfs : fs p = some bytes)
    (hchunks : (chunkText (e.readPdf bytes)).isEmpty = false)
    (hbi : buildIndex e fs cache p (chunkText (e.readPdf bytes)) = .ok (r, c')) :
    initializeRag e fs cache st (some p) none none
      = { success := true, info := .ok r
          state := { docs := r.docs, index := some r.indexVecs, pdf_ready := true
                     embedding_source := "generated", global_df := none }
          cache := c' } := by
  simp [initializeRag, hp, hfs, hchunks, hbi]

/-- Reduction of the PDF branch of `initialize_rag` on a raised build error. -/
theorem initializeRag_pdf_err (e : Externals) (fs : FileSystem) (cache : CacheState)
    (st : RagState) (p : String) (bytes : Bytes) (er : PyErr)
    (hp : ¬ p = "") (hfs : fs p = some bytes)
    (hchunks : (chunkText (e.readPdf bytes)).isEmpty = false)
    (hbi : buildIndex e fs cache p (chunkText (e.readPdf bytes)) = .error er) :
    initializeRag e fs cache st (some p) none none
      = { success := false, info := .errorCaught er, state := st, cache := cache } := by
  simp [initializeRag, hp, hfs, hchunks, hbi]

end GPayRag

namespace GPayRag

/-! ### Claim C8: uninitialized query -/

/-- Claim C8: calling `query` before any successful `initialize` call (the
    readiness flag unset or the index absent) returns the fixed not-ready
    answer text and an empty sources list, leaves the pipeline state exactly
    as it was (no side effects), and never raises: the result is the fixed
    dict, not an error. -/
theorem c8_query_uninitialized (o : QueryOracles) (st : RagState) (q : Str)
    (h : st.pdf_ready = false ∨ st.index = none) :
    queryRag o st q = ({ answer := notReadyAnswer, sources := [] }, st) := by
  unfold queryRag
  rw [if_pos h]

/-- Witness for C8 at the initial state with trivial oracles. -/
theorem c8_query_uninitialized_witness :
    queryRag { searchRow := [], crossScore := fun _ => 0, llm := fun _ => "a" }
        initialState ['h','i']
      = ({ answer := notReadyAnswer, sources := [] }, initialState) :=
  c8_query_uninitialized _ initialState ['h','i'] (Or.inl rfl)

/-! ### Claim C7: dimensionality mismatch is never reused -/

/-- Claim C7: for every cache entry whose stored matrix has a row of length
    different from the active embedding model's dimensionality, `build_index`
    never builds the index from the cached vectors: it recomputes embeddings
    for the supplied chunks, returns status "generated", and writes the fresh
    (normalized) embeddings through to the cache under the same key. -/
theorem c7_dim_mismatch_regenerates (e : Externals) (fs : FileSystem)
    (cache : CacheState) (path : String) (chunks : List Str) (bytes : Bytes)
    (m : List (List ℚ)) (docs0 : List Str) (r0 : List ℚ)
    (hfs : fs path = some bytes)
    (hcache : cache (e.md5 bytes) = some (.good m docs0))
    (hhead : m.head? = some r0)
    (hdim : r0.length ≠ e.dim) :
    buildIndex e fs cache path chunks
      = .ok ({ indexVecs := e.normL2 (e.encode chunks), docs := chunks,
               status := "generated", chunk_count := chunks.length,
               file_hash := e.md5 bytes },
             saveEmbeddingsToCache cache (e.md5 bytes)
               (e.normL2 (e.encode chunks)) chunks) ∧
    saveEmbeddingsToCache cache (e.md5 bytes) (e.normL2 (e.encode chunks)) chunks
        (e.md5 bytes)
      = some (.good (e.normL2 (e.encode chunks)) chunks) := by
  constructor
  · apply buildIndex_cache_mismatch e fs cache path chunks bytes m docs0 hfs hcache
    simp [npShape1, hhead]
    intro hlen
    exact hdim hlen
  · simp [saveEmbeddingsToCache]

/-- Witness for C7: a cached 1-dimensional entry against a 2-dimensional
    embedder is regenerated and overwritten. -/
theorem c7_dim_mismatch_regenerates_witness :
    (buildIndex
        { md5 := fun _ => "h", dim := 2, encode := fun cs => cs.map (fun _ => [0, 0])
          normL2 := fun v => v, readPdf := fun _ => [] }
        pdfFs (fun h => if h = "h" then some (.good [[0]] [['d']]) else none)
        "doc.pdf" [['c']]
      = .ok ({ indexVecs := [[0, 0]], docs := [['c']], status := "generated",
               chunk_count := 1, file_hash := "h" },
             saveEmbeddingsToCache (fun h => if h = "h" then some (.good [[0]] [['d']]) else none)
               "h" [[0, 0]] [['c']])) ∧
    saveEmbeddingsToCache (fun h => if h = "h" then some (.good [[0]] [['d']]) else none)
        "h" [[0, 0]] [['c']] "h"
      = some (.good [[0, 0]] [['c']]) :=
  c7_dim_mismatch_regenerates _ pdfFs _ "doc.pdf" [['c']] [7] [[0]] [['d']] [0]
    (by decide) (by decide) (by decide) (by decide)

end GPayRag

namespace GPayRag

/-! ### Claim C2: in-memory table with no backing file -/

/-- Claim C2 (code bug): with a nonempty in-memory transaction table and no
    source file, the indexer does not skip cache-key computation: the
    orchestrator calls `build_index` with the placeholder path "df_source",
    `file_hash` opens that nonexistent file and raises `FileNotFoundError`,
    and `initialize` returns a failure result instead of succeeding. -/
theorem c2_df_without_source_file :
    (initializeRag mockExternals emptyFs emptyCache initialState
        none (some [sampleRow]) none).success = false ∧
    (initializeRag mockExternals emptyFs emptyCache initialState
        none (some [sampleRow]) none).info
      = .errorCaught (.fileNotFound "df_source") := by
  exact ⟨by decide, by decide⟩

/-! ### Claim C3: state preservation on failed initialize -/

/-- Claim C3 counterexample: a failing `initialize` call in the structured
    branch (the build raises after `GLOBAL_DF` was already assigned) leaves
    the loaded transaction table changed, so the pipeline state is not left
    exactly as it was before the call. -/
theorem c3_failure_mutates_table_counterexample :
    (initializeRag mockExternals emptyFs emptyCache initialState
        none (some [sampleRow]) none).success = false ∧
    ¬ (initializeRag mockExternals emptyFs emptyCache initialState
        none (some [sampleRow]) none).state.global_df = initialState.global_df := by
  exact ⟨by decide, by decide⟩

/-- Claim C3 as amended: whenever `initialize` returns a failure result, the
    index, chunk list, readiness flag and embedding source are unchanged, and
    the structured table is unchanged too except that, when a structured table
    was supplied, it may already have been replaced by the supplied table
    before the failure point. -/
theorem c3_failure_state_preservation (e : Externals) (fs : FileSystem)
    (cache : CacheState) (st : RagState) (fp : Option String)
    (df : Option (List TxnRow)) (sf : Option String) :
    (initializeRag e fs cache st fp df sf).success = false →
    (initializeRag e fs cache st fp df sf).state.docs = st.docs ∧
    (initializeRag e fs cache st fp df sf).state.index = st.index ∧
    (initializeRag e fs cache st fp df sf).state.pdf_ready = st.pdf_ready ∧
    (initializeRag e fs cache st fp df sf).state.embedding_source = st.embedding_source ∧
    ((initializeRag e fs cache st fp df sf).state.global_df = st.global_df ∨
      ∃ rows, df = some rows ∧
        (initializeRag e fs cache st fp df sf).state.global_df = some rows) := by
  unfold initializeRag
  dsimp only
  repeat' split
  all_goals intro h
  all_goals simp_all

/-- Witness for C3 at the no-input failure case. -/
theorem c3_failure_state_preservation_witness :
    (initializeRag mockExternals emptyFs emptyCache initialState none none none).state.docs
        = initialState.docs ∧
    (initializeRag mockExternals emptyFs emptyCache initialState none none none).state.index
        = initialState.index ∧
    (initializeRag mockExternals emptyFs emptyCache initialState none none none).state.pdf_ready
        = initialState.pdf_ready ∧
    (initializeRag mockExternals emptyFs emptyCache initialState
        none none none).state.embedding_source = initialState.embedding_source ∧
    ((initializeRag mockExternals emptyFs emptyCache initialState
        none none none).state.global_df = initialState.global_df ∨
      ∃ rows, (none : Option (List TxnRow)) = some rows ∧
        (initializeRag mockExternals emptyFs emptyCache initialState
          none none none).state.global_df = some rows) :=
  c3_failure_state_preservation mockExternals emptyFs emptyCache initialState
    none none none (by decide)

end GPayRag

namespace GPayRag

/-! ### Claim C6: truncation correctness of the analytics context -/

/-- Inserting one element grows a list by one. -/
theorem insertOrd_length {α : Type} (before : α → α → Bool) (x : α) (l : List α) :
    (insertOrd before x l).length = l.length + 1 := by
  induction l with
  | nil => rfl
  | cons y ys ih =>
    unfold insertOrd
    split
    · rfl
    · simp [ih]

/-- The listing sort preserves the number of rows. -/
theorem sortOrd_length {α : Type} (before : α → α → Bool) (l : List α) :
    (sortOrd before l).length = l.length := by
  induction l with
  | nil => rfl
  | cons y ys ih =>
    unfold sortOrd at ih ⊢
    simp [List.foldr_cons, insertOrd_length, ih]

/-- Claim C6: for a structured-query result over `N > 200` filtered
    transactions, the rendered context lists exactly 200 line items plus a
    note accounting for the remaining `N - 200`, while the summary statistics
    (total spent, total received, net flow, transaction count) are computed
    over all `N` filtered rows, not only the 200 shown. -/
theorem c6_truncation (filtered : List TxnRow) (header : ContextHeader)
    (h : 200 < filtered.length) :
    (generateAnalyticsContext filtered header).shown_rows.length = 200 ∧
    (generateAnalyticsContext filtered header).more_note
      = some (filtered.length - 200) ∧
    (generateAnalyticsContext filtered header).txn_count = filtered.length ∧
    (generateAnalyticsContext filtered header).total_spent
      = ((filtered.filter (fun r => r.ttype == spentLit)).map (fun r => r.amount)).sum ∧
    (generateAnalyticsContext filtered header).total_received
      = ((filtered.filter (fun r => r.ttype == receivedLit)).map (fun r => r.amount)).sum ∧
    (generateAnalyticsContext filtered header).net_flow
      = (generateAnalyticsContext filtered header).total_received
        - (generateAnalyticsContext filtered header).total_spent := by
  have hs : (sortOrd rowBefore filtered).length = filtered.length :=
    sortOrd_length rowBefore filtered
  have htr : decide ((sortOrd rowBefore filtered).length > 200) = true := by
    rw [hs]
    exact decide_eq_true h
  refine ⟨?_, ?_, rfl, rfl, rfl, rfl⟩
  · show (if decide ((sortOrd rowBefore filtered).length > 200) = true
        then (sortOrd rowBefore filtered).take 200
        else sortOrd rowBefore filtered).length = 200
    rw [htr, if_pos rfl, List.length_take, hs]
    exact Nat.min_eq_left (Nat.le_of_lt h)
  · show (if decide ((sortOrd rowBefore filtered).length > 200) = true
        then some (filtered.length - 200) else none) = some (filtered.length - 200)
    rw [htr, if_pos rfl]

/-- Witness for C6 over 201 identical rows. -/
theorem c6_truncation_witness :
    (generateAnalyticsContext (List.replicate 201 sampleRow) (.allTime 201)).shown_rows.length
        = 200 ∧
    (generateAnalyticsContext (List.replicate 201 sampleRow) (.allTime 201)).more_note
      = some ((List.replicate 201 sampleRow).length - 200) ∧
    (generateAnalyticsContext (List.replicate 201 sampleRow) (.allTime 201)).txn_count
      = (List.replicate 201 sampleRow).length ∧
    (generateAnalyticsContext (List.replicate 201 sampleRow) (.allTime 201)).total_spent
      = (((List.replicate 201 sampleRow).filter (fun r => r.ttype == spentLit)).map
          (fun r => r.amount)).sum ∧
    (generateAnalyticsContext (List.replicate 201 sampleRow) (.allTime 201)).total_received
      = (((List.replicate 201 sampleRow).filter (fun r => r.ttype == receivedLit)).map
          (fun r => r.amount)).sum ∧
    (generateAnalyticsContext (List.replicate 201 sampleRow) (.allTime 201)).net_flow
      = (generateAnalyticsContext (List.replicate 201 sampleRow) (.allTime 201)).total_received
        - (generateAnalyticsContext (List.replicate 201 sampleRow) (.allTime 201)).total_spent :=
  c6_truncation (List.replicate 201 sampleRow) (.allTime 201)
    (by rw [List.length_replicate]; exact Nat.lt_succ_self 200)

end GPayRag

namespace GPayRag

/-! ### Claim C1: corrupt cache files at initialization -/

set_option maxRecDepth 8000 in
/-- Claim C1 counterexample: with an existing but malformed cache file for the
    source file's hash, `initialize` returns a failure result (the `np.load`
    exception is caught at the orchestrator boundary), so a corrupt cache file
    is not treated as a cache miss. -/
theorem c1_corrupt_cache_counterexample :
    (initializeRag mockExternals pdfFs malformedCache initialState
        (some "doc.pdf") none none).success = false ∧
    (initializeRag mockExternals pdfFs malformedCache initialState
        (some "doc.pdf") none none).info = .errorCaught (.npLoadFailure "h") := by
  exact ⟨by decide, by decide⟩

/-- Claim C1 as amended: a missing cache entry is treated as a miss and falls
    back to computing fresh embeddings, but a cache file that exists and is
    malformed makes `initialize` return a failure result (the exception is
    caught, never propagated, and the pipeline state is left unchanged). -/
theorem c1_cache_failure_semantics (e : Externals) (fs : FileSystem)
    (cache : CacheState) (st : RagState) (p : String) (bytes : Bytes)
    (hp : ¬ p = "") (hfs : fs p = some bytes)
    (hchunks : (chunkText (e.readPdf bytes)).isEmpty = false) :
    (cache (e.md5 bytes) = none →
      initializeRag e fs cache st (some p) none none
        = { success := true
            info := .ok { indexVecs := e.normL2 (e.encode (chunkText (e.readPdf bytes)))
                          docs := chunkText (e.readPdf bytes), status := "generated"
                          chunk_count := (chunkText (e.readPdf bytes)).length
                          file_hash := e.md5 bytes }
            state := { docs := chunkText (e.readPdf bytes)
                       index := some (e.normL2 (e.encode (chunkText (e.readPdf bytes))))
                       pdf_ready := true, embedding_source := "generated", global_df := none }
            cache := saveEmbeddingsToCache cache (e.md5 bytes)
              (e.normL2 (e.encode (chunkText (e.readPdf bytes))))
              (chunkText (e.readPdf bytes)) }) ∧
    (cache (e.md5 bytes) = some .malformed →
      initializeRag e fs cache st (some p) none none
        = { success := false, info := .errorCaught (.npLoadFailure (e.md5 bytes))
            state := st, cache := cache }) := by
  constructor
  · intro hmiss
    exact initializeRag_pdf_ok e fs cache st p bytes _ _ hp hfs hchunks
      (buildIndex_cache_none e fs cache p (chunkText (e.readPdf bytes)) bytes hfs hmiss)
  · intro hmal
    exact initializeRag_pdf_err e fs cache st p bytes _ hp hfs hchunks
      (buildIndex_cache_malformed e fs cache p (chunkText (e.readPdf bytes)) bytes hfs hmal)

set_option maxRecDepth 8000 in
/-- Witness for C1: the miss branch against an empty cache directory and the
    malformed branch against a corrupt cache file, at one concrete PDF. -/
theorem c1_cache_failure_semantics_witness :
    (initializeRag mockExternals pdfFs emptyCache initialState (some "doc.pdf") none none
      = { success := true
          info := .ok { indexVecs := mockExternals.normL2 (mockExternals.encode
                          (chunkText (mockExternals.readPdf [7])))
                        docs := chunkText (mockExternals.readPdf [7]), status := "generated"
                        chunk_count := (chunkText (mockExternals.readPdf [7])).length
                        file_hash := mockExternals.md5 [7] }
          state := { docs := chunkText (mockExternals.readPdf [7])
                     index := some (mockExternals.normL2 (mockExternals.encode
                       (chunkText (mockExternals.readPdf [7]))))
                     pdf_ready := true, embedding_source := "generated", global_df := none }
          cache := saveEmbeddingsToCache emptyCache (mockExternals.md5 [7])
            (mockExternals.normL2 (mockExternals.encode (chunkText (mockExternals.readPdf [7]))))
            (chunkText (mockExternals.readPdf [7])) }) ∧
    (initializeRag mockExternals pdfFs malformedCache initialState (some "doc.pdf") none none
      = { success := false, info := .errorCaught (.npLoadFailure (mockExternals.md5 [7]))
          state := initialState, cache := malformedCache }) :=
  ⟨(c1_cache_failure_semantics mockExternals pdfFs emptyCache initialState "doc.pdf" [7]
      (by decide) (by decide) (by decide)).1 rfl,
   (c1_cache_failure_semantics mockExternals pdfFs malformedCache initialState "doc.pdf" [7]
      (by decide) (by decide) (by decide)).2 rfl⟩

end GPayRag

namespace GPayRag

/-! ### Claim C9: idempotent re-initialization via the cache -/

/-- Claim C9: two `initialize` calls over byte-identical file content (the
    embedding model unchanged) both succeed, the second returns status
    "cache_hit", and it reports the same chunk count as the first, because a
    generating first call writes its embeddings and chunks through to the
    cache under the content hash. The dimensionality hypothesis is the
    external embedder contract (encoded vectors have the configured
    dimensionality and normalisation preserves shape); the cache entry for the
    hash is assumed not to be a malformed file. -/
theorem c9_initialize_idempotent (e : Externals) (fs : FileSystem) (cache : CacheState)
    (st : RagState) (p : String) (bytes : Bytes)
    (hp : ¬ p = "") (hfs : fs p = some bytes)
    (hchunks : (chunkText (e.readPdf bytes)).isEmpty = false)
    (hdim : ∀ cs : List Str, cs ≠ [] → npShape1 (e.normL2 (e.encode cs)) = some e.dim)
    (hnotmal : cache (e.md5 bytes) ≠ some .malformed) :
    (initTwice e fs cache st p).1.success = true ∧
    (initTwice e fs cache st p).2.success = true ∧
    ∃ r1 r2, (initTwice e fs cache st p).1.info = .ok r1 ∧
      (initTwice e fs cache st p).2.info = .ok r2 ∧
      r2.status = "cache_hit" ∧ r2.chunk_count = r1.chunk_count := by
  have hne : chunkText (e.readPdf bytes) ≠ [] := by
    intro hnil
    rw [hnil] at hchunks
    simp at hchunks
  unfold initTwice
  cases hcc : cache (e.md5 bytes) with
  | none =>
    have h1 := initializeRag_pdf_ok e fs cache st p bytes _ _ hp hfs hchunks
      (buildIndex_cache_none e fs cache p (chunkText (e.readPdf bytes)) bytes hfs hcc)
    rw [h1]
    dsimp only
    have hsave : saveEmbeddingsToCache cache (e.md5 bytes)
        (e.normL2 (e.encode (chunkText (e.readPdf bytes)))) (chunkText (e.readPdf bytes))
        (e.md5 bytes)
        = some (.good (e.normL2 (e.encode (chunkText (e.readPdf bytes))))
            (chunkText (e.readPdf bytes))) := by
      simp [saveEmbeddingsToCache]
    rw [initializeRag_pdf_ok e fs _ _ p bytes _ _ hp hfs hchunks
      (buildIndex_cache_hit e fs
        (saveEmbeddingsToCache cache (e.md5 bytes)
          (e.normL2 (e.encode (chunkText (e.readPdf bytes)))) (chunkText (e.readPdf bytes)))
        p (chunkText (e.readPdf bytes)) bytes
        (e.normL2 (e.encode (chunkText (e.readPdf bytes)))) (chunkText (e.readPdf bytes))
        hfs hsave (hdim (chunkText (e.readPdf bytes)) hne))]
    exact ⟨rfl, rfl, _, _, rfl, rfl, rfl, rfl⟩
  | some cf =>
    cases cf with
    | malformed => exact absurd hcc hnotmal
    | good m docs0 =>
      by_cases hd : npShape1 m = some e.dim
      · have h1 := initializeRag_pdf_ok e fs cache st p bytes _ _ hp hfs hchunks
          (buildIndex_cache_hit e fs cache p (chunkText (e.readPdf bytes)) bytes m docs0
            hfs hcc hd)
        rw [h1]
        dsimp only
        rw [initializeRag_pdf_ok e fs cache _ p bytes _ _ hp hfs hchunks
          (buildIndex_cache_hit e fs cache p (chunkText (e.readPdf bytes)) bytes m docs0
            hfs hcc hd)]
        exact ⟨rfl, rfl, _, _, rfl, rfl, rfl, rfl⟩
      · have h1 := initializeRag_pdf_ok e fs cache st p bytes _ _ hp hfs hchunks
          (buildIndex_cache_mismatch e fs cache p (chunkText (e.readPdf bytes)) bytes m docs0
            hfs hcc hd)
        rw [h1]
        dsimp only
        have hsave : saveEmbeddingsToCache cache (e.md5 bytes)
            (e.normL2 (e.encode (chunkText (e.readPdf bytes)))) (chunkText (e.readPdf bytes))
            (e.md5 bytes)
            = some (.good (e.normL2 (e.encode (chunkText (e.readPdf bytes))))
                (chunkText (e.readPdf bytes))) := by
          simp [saveEmbeddingsToCache]
        rw [initializeRag_pdf_ok e fs _ _ p bytes _ _ hp hfs hchunks
          (buildIndex_cache_hit e fs
            (saveEmbeddingsToCache cache (e.md5 bytes)
              (e.normL2 (e.encode (chunkText (e.readPdf bytes)))) (chunkText (e.readPdf bytes)))
            p (chunkText (e.readPdf bytes)) bytes
            (e.normL2 (e.encode (chunkText (e.readPdf bytes)))) (chunkText (e.readPdf bytes))
            hfs hsave (hdim (chunkText (e.readPdf bytes)) hne))]
        exact ⟨rfl, rfl, _, _, rfl, rfl, rfl, rfl⟩

set_option maxRecDepth 8000 in
/-- Witness for C9 at a concrete PDF, empty cache and mock embedder. -/
theorem c9_initialize_idempotent_witness :
    (initTwice mockExternals pdfFs emptyCache initialState "doc.pdf").1.success = true ∧
    (initTwice mockExternals pdfFs emptyCache initialState "doc.pdf").2.success = true ∧
    ∃ r1 r2,
      (initTwice mockExternals pdfFs emptyCache initialState "doc.pdf").1.info = .ok r1 ∧
      (initTwice mockExternals pdfFs emptyCache initialState "doc.pdf").2.info = .ok r2 ∧
      r2.status = "cache_hit" ∧ r2.chunk_count = r1.chunk_count :=
  c9_initialize_idempotent mockExternals pdfFs emptyCache initialState "doc.pdf" [7]
    (by decide) (by decide) (by decide)
    (by
      intro cs h
      cases cs with
      | nil => exact absurd rfl h
      | cons a t => rfl)
    (by decide)

end GPayRag

namespace GPayRag

/-! ### Claim C10: totality of retrieve on short indexes -/

/-- Python indexing succeeds for any index within `[-len, len)`. -/
theorem pyGet?_isSome {α : Type} (xs : List α) (i : Int)
    (h1 : -(xs.length : Int) ≤ i) (h2 : i < (xs.length : Int)) :
    ∃ t, pyGet? xs i = some t := by
  unfold pyGet?
  by_cases h0 : 0 ≤ i
  · rw [if_pos h0]
    have hlt : i.toNat < xs.length := by omega
    exact ⟨_, List.getElem?_eq_getElem hlt⟩
  · rw [if_neg h0]
    have hge : (0 : Int) ≤ i + xs.length := by omega
    rw [if_pos hge]
    have hlt : (i + xs.length).toNat < xs.length := by omega
    exact ⟨_, List.getElem?_eq_getElem hlt⟩

/-- Python index `-1` resolves to the last element. -/
theorem pyGet?_neg_one {α : Type} (xs : List α) (hne : xs ≠ []) :
    pyGet? xs (-1) = some (xs.getLast hne) := by
  have hlen : 0 < xs.length := List.length_pos.mpr hne
  unfold pyGet?
  rw [if_neg (by omega), if_pos (by omega)]
  have ht : ((-1 : Int) + xs.length).toNat = xs.length - 1 := by omega
  rw [ht, List.getLast_eq_getElem]
  exact List.getElem?_eq_getElem (by omega)

/-- The semantic loop of `retrieve` never raises when every faiss label is
    either the padding value `-1` or a valid index. -/
theorem semanticLoop_total (docs : List Str) (hne : docs ≠ []) :
    ∀ sr : List (Int × ℚ),
      (∀ x ∈ sr, x.1 = -1 ∨ (0 ≤ x.1 ∧ x.1 < (docs.length : Int))) →
      ∃ sem, semanticLoop docs sr = some sem := by
  intro sr
  induction sr with
  | nil => exact fun _ => ⟨[], rfl⟩
  | cons hd tl ih =>
    intro hc
    obtain ⟨sem, hsem⟩ := ih (fun x hx => hc x (List.mem_cons_of_mem _ hx))
    obtain ⟨di, s⟩ := hd
    have hlen : 0 < docs.length := List.length_pos.mpr hne
    unfold semanticLoop
    by_cases hlt : di < (docs.length : Int)
    · rw [if_pos hlt]
      have hb : -(docs.length : Int) ≤ di := by
        rcases hc (di, s) (List.mem_cons_self _ _) with h | ⟨h0, _⟩ <;> omega
      obtain ⟨t, ht⟩ := pyGet?_isSome docs di hb hlt
      rw [ht, hsem]
      exact ⟨_, rfl⟩
    · rw [if_neg hlt]
      exact ⟨sem, hsem⟩

/-- Each padding label `-1` contributes the last chunk, tagged "semantic",
    to the semantic candidate list. -/
theorem semanticLoop_neg_one (docs : List Str) (hne : docs ≠ []) :
    ∀ (sr : List (Int × ℚ)) (sem : List Candidate) (s : ℚ),
      semanticLoop docs sr = some sem → (-1, s) ∈ sr →
      ({ text := docs.getLast hne, cosine_score := s, ctype := "semantic" } : Candidate) ∈ sem := by
  intro sr
  induction sr with
  | nil => intro sem s _ hmem; cases hmem
  | cons hd tl ih =>
    intro sem s hsem hmem
    obtain ⟨di, sc⟩ := hd
    have hlen : 0 < docs.length := List.length_pos.mpr hne
    unfold semanticLoop at hsem
    by_cases hlt : di < (docs.length : Int)
    · rw [if_pos hlt] at hsem
      cases hget : pyGet? docs di with
      | none => rw [hget] at hsem; cases hsem
      | some t =>
        rw [hget] at hsem
        cases hrec : semanticLoop docs tl with
        | none => rw [hrec] at hsem; cases hsem
        | some l =>
          rw [hrec] at hsem
          cases hsem
          rcases List.mem_cons.mp hmem with hh | htl
          · have hdi : di = -1 := congrArg Prod.fst hh.symm
            have hsc : s = sc := congrArg Prod.snd hh
            subst hdi
            rw [pyGet?_neg_one docs hne] at hget
            cases hget
            subst hsc
            exact List.mem_cons_self _ _
          · exact List.mem_cons_of_mem _ (ih l s hrec htl)
    · rw [if_neg hlt] at hsem
      rcases List.mem_cons.mp hmem with hh | htl
      · have hdi : di = -1 := congrArg Prod.fst hh.symm
        subst hdi
        exact absurd (by omega : (-1 : Int) < (docs.length : Int)) hlt
      · exact ih sem s hsem htl

/-- Claim C10: `retrieve` is total for every query and nonempty chunk list
    even when the index holds fewer vectors than `TOP_K` and faiss pads the
    result with label `-1`: the `doc_idx < len(docs)` guard admits the
    padding labels, Python's negative indexing resolves each of them to the
    last chunk, and retrieve returns without raising — with the last chunk
    appearing as a spurious "semantic" candidate for each padded slot. -/
theorem c10_retrieve_total_short_index (sr : List (Int × ℚ)) (q : Str)
    (docs : List Str) (hne : docs ≠ [])
    (hc : ∀ x ∈ sr, x.1 = -1 ∨ (0 ≤ x.1 ∧ x.1 < (docs.length : Int))) :
    (∃ res, retrievePy sr q docs = some res) ∧
    (∀ sem, semanticLoop docs sr = some sem → ∀ s : ℚ, (-1, s) ∈ sr →
      ({ text := docs.getLast hne, cosine_score := s,
         ctype := "semantic" } : Candidate) ∈ sem) := by
  constructor
  · obtain ⟨sem, hsem⟩ := semanticLoop_total docs hne sr hc
    have hs : (retrievePy sr q docs).isSome = true := by
      unfold retrievePy
      rw [hsem]
      rfl
    exact Option.isSome_iff_exists.mp hs
  · intro sem hsem s hmem
    exact semanticLoop_neg_one docs hne sr sem s hsem hmem

/-- Witness for C10: a two-chunk index searched with a padded result row. -/
theorem c10_retrieve_total_short_index_witness :
    (∃ res, retrievePy [((-1 : Int), (0 : ℚ)), (1, 0)] ['q'] [['a'], ['b']] = some res) ∧
    (∀ sem, semanticLoop [['a'], ['b']] [((-1 : Int), (0 : ℚ)), (1, 0)] = some sem →
      ∀ s : ℚ, ((-1 : Int), s) ∈ [((-1 : Int), (0 : ℚ)), (1, 0)] →
      ({ text := [['a'], ['b']].getLast (by decide), cosine_score := s,
         ctype := "semantic" } : Candidate) ∈ sem) :=
  c10_retrieve_total_short_index [((-1 : Int), (0 : ℚ)), (1, 0)] ['q'] [['a'], ['b']]
    (by decide) (by decide)

end GPayRag

namespace GPayRag

/-! ### Claim C5: interceptor rule order and silent fallback -/

/-- The category loop of the source equals the first-nonempty-category rule
    of the spec-side chain. -/
theorem ruleCategory_eq_loop (rows : List TxnRow) (q : Str) :
    ruleCategory rows q
      = categoryLoop rows q (dedupStrs (rows.filterMap (fun r => r.category)) []) := by
  unfold ruleCategory
  generalize dedupStrs (rows.filterMap (fun r => r.category)) [] = cats
  induction cats with
  | nil => rfl
  | cons c cs ih =>
    unfold categoryLoop
    unfold List.findSome?
    dsimp only
    by_cases h1 : listSubstr (lowerStr c) (lowerStr q)
    · rw [if_pos h1, if_pos h1]
      by_cases h2 : (rows.filter (fun r => r.category == some c)).isEmpty
      · rw [if_pos h2, if_pos h2]
        exact ih
      · rw [if_neg h2, if_neg h2]
    · rw [if_neg h1, if_neg h1]
      exact ih

/-- Claim C5 counterexample: for the question "22 Oct Food" over a table with
    one Food transaction dated 5 Nov 2024, the day+month rule's pattern
    matches the question first, yet its filtered result is not what is
    returned: the interceptor returns the category rule's result instead, so
    "the first rule that matches the question wins" fails as stated. -/
theorem c5_first_match_counterexample :
    (searchDayMonth ("22 Oct Food".toList)).isSome = true ∧
    (queryStructuredData (some [sampleRow]) ("22 Oct Food".toList)).map
        (fun c => c.header)
      = some (.byCategory 1 ("Food".toList)) := by
  exact ⟨by decide, by decide⟩

/-- Claim C5 as amended: the interceptor evaluates its rules in the fixed
    order day+month, month+year, month-only, category keyword, generic
    aggregate, and the first rule whose pattern matches the question AND
    whose filtered row set is nonempty wins; a rule whose pattern matches but
    filters to zero rows (or whose parsing fails) is skipped and evaluation
    continues with the next rule; if no rule produces a result the
    interceptor returns none and the query falls through to hybrid retrieval
    without surfacing any error (the query result is the retrieval branch's,
    identical to what a session without a structured table would produce, and
    no exception reaches the caller). -/
theorem c5_interceptor_rule_chain :
    (∀ (gdf : Option (List TxnRow)) (q : Str),
      queryStructuredData gdf q = interceptorSpec gdf q) ∧
    (∀ (o : QueryOracles) (st : RagState) (q : Str),
      st.pdf_ready = true → ¬ st.index = none → st.docs ≠ [] →
      (∀ x ∈ o.searchRow, x.1 = -1 ∨ (0 ≤ x.1 ∧ x.1 < (st.docs.length : Int))) →
      queryStructuredData st.global_df q = none →
      ∃ r, queryRagCore o st q = .ok r ∧ queryRag o st q = (r, st) ∧
        (queryRag o st q).1 = (queryRag o { st with global_df := none } q).1) := by
  constructor
  · intro gdf q
    cases gdf with
    | none => rfl
    | some rows =>
      by_cases hre : rows.isEmpty
      · simp [queryStructuredData, interceptorSpec, hre]
      · simp only [queryStructuredData, interceptorSpec, interceptorRules, List.findSome?,
          ruleDayMonth, ruleMonthYear, ruleMonthOnly, ruleAggregate, ruleCategory_eq_loop]
        rw [if_neg hre]
        try rw [if_neg hre]
        cases searchDayMonth q with
        | some g =>
          obtain ⟨dayS, monS⟩ := g
          dsimp only
          by_cases hf1 : (rows.filter
              (dayMonthMask (digitsToNat? dayS) (monthNum (titleStr (monS.take 3))))).isEmpty
          · rw [if_pos hf1]; try rw [if_pos hf1]; try dsimp only
            cases searchMonthYear q with
            | some g2 =>
              obtain ⟨monS2, yearS2⟩ := g2
              dsimp only
              by_cases hf2 : (rows.filter
                  (monthYearMask (monthNum (titleStr (monS2.take 3)))
                    (digitsToNat? yearS2))).isEmpty
              · rw [if_pos hf2]; try rw [if_pos hf2]; try dsimp only
                cases searchMonthOnly q with
                | some monS3 =>
                  dsimp only
                  by_cases hf3 : (rows.filter
                      (monthMask (monthNum (titleStr (monS3.take 3))))).isEmpty
                  · rw [if_pos hf3]; try rw [if_pos hf3]; try dsimp only
                    cases categoryLoop rows q
                        (dedupStrs (rows.filterMap (fun r => r.category)) []) with
                    | some ctx => rfl
                    | none =>
                      by_cases hagg : (aggregateKeywords.any fun k => listSubstr k (lowerStr q)) = true
                      · rw [if_pos hagg]
                      · rw [if_neg hagg]
                  · rw [if_neg hf3]; try rw [if_neg hf3]; try rfl
                | none =>
                  dsimp only
                  cases categoryLoop rows q
                      (dedupStrs (rows.filterMap (fun r => r.category)) []) with
                  | some ctx => rfl
                  | none =>
                    by_cases hagg : (aggregateKeywords.any fun k => listSubstr k (lowerStr q)) = true
                    · rw [if_pos hagg]
                    · rw [if_neg hagg]
              · rw [if_neg hf2]; try rw [if_neg hf2]; try rfl
            | none =>
              dsimp only
              cases searchMonthOnly q with
              | some monS3 =>
                dsimp only
                by_cases hf3 : (rows.filter
                    (monthMask (monthNum (titleStr (monS3.take 3))))).isEmpty
                · rw [if_pos hf3]; try rw [if_pos hf3]; try dsimp only
                  cases categoryLoop rows q
                      (dedupStrs (rows.filterMap (fun r => r.category)) []) with
                  | some ctx => rfl
                  | none =>
                    by_cases hagg : (aggregateKeywords.any fun k => listSubstr k (lowerStr q)) = true
                    · rw [if_pos hagg]
                    · rw [if_neg hagg]
                · rw [if_neg hf3]; try rw [if_neg hf3]; try rfl
              | none =>
                dsimp only
                cases categoryLoop rows q
                    (dedupStrs (rows.filterMap (fun r => r.category)) []) with
                | some ctx => rfl
                | none =>
                  by_cases hagg : (aggregateKeywords.any fun k => listSubstr k (lowerStr q)) = true
                  · rw [if_pos hagg]
                  · rw [if_neg hagg]
          · rw [if_neg hf1]; try rw [if_neg hf1]; try rfl
        | none =>
          dsimp only
          cases searchMonthYear q with
          | some g2 =>
            obtain ⟨monS2, yearS2⟩ := g2
            dsimp only
            by_cases hf2 : (rows.filter
                (monthYearMask (monthNum (titleStr (monS2.take 3)))
                  (digitsToNat? yearS2))).isEmpty
            · rw [if_pos hf2]; try rw [if_pos hf2]; try dsimp only
              cases searchMonthOnly q with
              | some monS3 =>
                dsimp only
                by_cases hf3 : (rows.filter
                    (monthMask (monthNum (titleStr (monS3.take 3))))).isEmpty
                · rw [if_pos hf3]; try rw [if_pos hf3]; try dsimp only
                  cases categoryLoop rows q
                      (dedupStrs (rows.filterMap (fun r => r.category)) []) with
                  | some ctx => rfl
                  | none =>
                    by_cases hagg : (aggregateKeywords.any fun k => listSubstr k (lowerStr q)) = true
                    · rw [if_pos hagg]
                    · rw [if_neg hagg]
                · rw [if_neg hf3]; try rw [if_neg hf3]; try rfl
              | none =>
                dsimp only
                cases categoryLoop rows q
                    (dedupStrs (rows.filterMap (fun r => r.category)) []) with
                | some ctx => rfl
                | none =>
                  by_cases hagg : (aggregateKeywords.any fun k => listSubstr k (lowerStr q)) = true
                  · rw [if_pos hagg]
                  · rw [if_neg hagg]
            · rw [if_neg hf2]; try rw [if_neg hf2]; try rfl
          | none =>
            dsimp only
            cases searchMonthOnly q with
            | some monS3 =>
              dsimp only
              by_cases hf3 : (rows.filter
                  (monthMask (monthNum (titleStr (monS3.take 3))))).isEmpty
              · rw [if_pos hf3]; try rw [if_pos hf3]; try dsimp only
                cases categoryLoop rows q
                    (dedupStrs (rows.filterMap (fun r => r.category)) []) with
                | some ctx => rfl
                | none =>
                  by_cases hagg : (aggregateKeywords.any fun k => listSubstr k (lowerStr q)) = true
                  · rw [if_pos hagg]
                  · rw [if_neg hagg]
              · rw [if_neg hf3]; try rw [if_neg hf3]; try rfl
            | none =>
              dsimp only
              cases categoryLoop rows q
                  (dedupStrs (rows.filterMap (fun r => r.category)) []) with
              | some ctx => rfl
              | none =>
                by_cases hagg : (aggregateKeywords.any fun k => listSubstr k (lowerStr q)) = true
                · rw [if_pos hagg]
                · rw [if_neg hagg]

  · intro o st q hready hidx hdocs hc hnone
    obtain ⟨sem, hsem⟩ := semanticLoop_total st.docs hdocs o.searchRow hc
    have hret : (retrievePy o.searchRow q st.docs).isSome = true := by
      unfold retrievePy
      rw [hsem]
      rfl
    obtain ⟨retrieved, hr⟩ := Option.isSome_iff_exists.mp hret
    have hcore : ∃ r, queryRagCore o st q = .ok r := by
      unfold queryRagCore
      rw [hnone, hr]
      dsimp only
      by_cases hemp : retrieved.isEmpty
      · rw [if_pos hemp]
        exact ⟨_, rfl⟩
      · rw [if_neg hemp]
        exact ⟨_, rfl⟩
    obtain ⟨r, hcr⟩ := hcore
    have hcore2 : queryRagCore o { st with global_df := none } q = .ok r := by
      unfold queryRagCore at hcr ⊢
      rw [hnone] at hcr
      exact hcr
    have h1 : queryRag o st q = (r, st) := by
      unfold queryRag
      rw [if_neg (by simp [hready, hidx]), hcr]
    have h2 : queryRag o { st with global_df := none } q
        = (r, { st with global_df := none }) := by
      unfold queryRag
      rw [if_neg (by simp [hready, hidx]), hcore2]
    exact ⟨r, hcr, h1, by rw [h1, h2]⟩

/-- Witness for C5: the rule-chain equality at a one-row table and the silent
    fall-through at a ready state whose question matches no rule. -/
theorem c5_interceptor_rule_chain_witness :
    queryStructuredData (some [sampleRow]) ("hello".toList)
        = interceptorSpec (some [sampleRow]) ("hello".toList) ∧
    ∃ r, queryRagCore { searchRow := [], crossScore := fun _ => 0, llm := fun _ => "a" }
          readyState ("hello".toList) = .ok r ∧
        queryRag { searchRow := [], crossScore := fun _ => 0, llm := fun _ => "a" }
          readyState ("hello".toList) = (r, readyState) ∧
        (queryRag { searchRow := [], crossScore := fun _ => 0, llm := fun _ => "a" }
          readyState ("hello".toList)).1
          = (queryRag { searchRow := [], crossScore := fun _ => 0, llm := fun _ => "a" }
            { readyState with global_df := none } ("hello".toList)).1 :=
  ⟨c5_interceptor_rule_chain.1 (some [sampleRow]) ("hello".toList),
   c5_interceptor_rule_chain.2 _ readyState ("hello".toList) rfl (by decide) (by decide)
     (by intro x hx; cases hx) (by decide)⟩

end GPayRag

namespace GPayRag

/-! ### Claim C4: exact-ID match priority -/

/-- A fold whose step only ever appends produces an extension of its
    accumulator. -/
theorem foldl_extends {α β : Type} (f : List α → β → List α)
    (hf : ∀ acc b, ∃ t, f acc b = acc ++ t) :
    ∀ (l : List β) (acc : List α), ∃ t, l.foldl f acc = acc ++ t := by
  intro l
  induction l with
  | nil => exact fun acc => ⟨[], by simp⟩
  | cons b bs ih =>
    intro acc
    obtain ⟨t1, h1⟩ := hf acc b
    obtain ⟨t2, h2⟩ := ih (f acc b)
    exact ⟨t1 ++ t2, by rw [List.foldl_cons, h2, h1, List.append_assoc]⟩

/-- `addMatch` extends its accumulator. -/
theorem addMatch_extends (tag : String) (sc : ℚ) (d : Str) (acc : List Candidate) :
    ∃ t, addMatch tag sc d acc = acc ++ t := by
  unfold addMatch
  split
  · exact ⟨[], by simp⟩
  · exact ⟨_, rfl⟩

/-- The UPI section extends its accumulator. -/
theorem upiSection_extends (us : List Str) (docs : List Str) (acc : List Candidate) :
    ∃ t, upiSection us docs acc = acc ++ t := by
  unfold upiSection
  split
  · exact ⟨[], by simp⟩
  · refine foldl_extends _ (fun acc d => ?_) docs acc
    split
    · exact addMatch_extends _ _ _ _
    · exact ⟨[], by simp⟩

/-- The amount section extends its accumulator. -/
theorem amountSection_extends (amts : List Str) (docs : List Str) (acc : List Candidate) :
    ∃ t, amountSection amts docs acc = acc ++ t := by
  unfold amountSection
  refine foldl_extends _ (fun acc a => ?_) amts acc
  dsimp only
  split
  · split
    · refine foldl_extends _ (fun acc d => ?_) docs acc
      split
      · exact addMatch_extends _ _ _ _
      · exact ⟨[], by simp⟩
    · exact ⟨[], by simp⟩
  · exact ⟨[], by simp⟩

/-- The keyword section extends its accumulator. -/
theorem keywordSection_extends (kws : List Str) (docs : List Str) (acc : List Candidate) :
    ∃ t, keywordSection kws docs acc = acc ++ t := by
  unfold keywordSection
  split
  · exact ⟨[], by simp⟩
  · refine foldl_extends _ (fun acc d => ?_) docs acc
    split
    · exact addMatch_extends _ _ _ _
    · exact ⟨[], by simp⟩

/-- Elements of `addMatch` come from the accumulator or are the added match. -/
theorem addMatch_mem (tag : String) (sc : ℚ) (d : Str) (acc : List Candidate)
    (x : Candidate) (hx : x ∈ addMatch tag sc d acc) :
    x ∈ acc ∨ x = { text := d, cosine_score := sc, ctype := tag } := by
  unfold addMatch at hx
  split at hx
  · exact Or.inl hx
  · rcases List.mem_append.mp hx with h | h
    · exact Or.inl h
    · right
      simpa using h

/-- Elements of a fold come from the accumulator or satisfy the step's
    new-element property. -/
theorem foldl_mem {α β : Type} (f : List α → β → List α) (P : α → Prop)
    (hf : ∀ acc b x, x ∈ f acc b → x ∈ acc ∨ P x) :
    ∀ (l : List β) (acc : List α) (x : α), x ∈ l.foldl f acc → x ∈ acc ∨ P x := by
  intro l
  induction l with
  | nil => exact fun acc x hx => Or.inl hx
  | cons b bs ih =>
    intro acc x hx
    rcases ih (f acc b) x hx with h | h
    · exact hf acc b x h
    · exact Or.inr h

/-- New elements of the UPI section are exact-id matches with score 1. -/
theorem upiSection_mem (us : List Str) (docs : List Str) (acc : List Candidate)
    (x : Candidate) (hx : x ∈ upiSection us docs acc) :
    x ∈ acc ∨ ∃ d, x = { text := d, cosine_score := 1, ctype := "exact_id_match" } := by
  unfold upiSection at hx
  split at hx
  · exact Or.inl hx
  · refine foldl_mem _
      (fun x => ∃ d, x = { text := d, cosine_score := 1, ctype := "exact_id_match" })
      (fun acc d x hx => ?_) docs acc x hx
    split at hx
    · rcases addMatch_mem _ _ _ _ _ hx with h | h
      · exact Or.inl h
      · exact Or.inr ⟨_, h⟩
    · exact Or.inl hx

/-- New elements of the amount section are amount matches. -/
theorem amountSection_mem (amts : List Str) (docs : List Str) (acc : List Candidate)
    (x : Candidate) (hx : x ∈ amountSection amts docs acc) :
    x ∈ acc ∨ ∃ d, x = { text := d, cosine_score := mkRat 19 20, ctype := "amount_match" } := by
  unfold amountSection at hx
  refine foldl_mem _
    (fun x => ∃ d, x = { text := d, cosine_score := mkRat 19 20, ctype := "amount_match" })
    (fun acc a x hx => ?_) amts acc x hx
  dsimp only at hx
  split at hx
  · split at hx
    · refine foldl_mem _
        (fun x => ∃ d, x = { text := d, cosine_score := mkRat 19 20, ctype := "amount_match" })
        (fun acc d x hx => ?_) docs acc x hx
      split at hx
      · rcases addMatch_mem _ _ _ _ _ hx with h | h
        · exact Or.inl h
        · exact Or.inr ⟨_, h⟩
      · exact Or.inl hx
    · exact Or.inl hx
  · exact Or.inl hx

/-- New elements of the keyword section are keyword matches. -/
theorem keywordSection_mem (kws : List Str) (docs : List Str) (acc : List Candidate)
    (x : Candidate) (hx : x ∈ keywordSection kws docs acc) :
    x ∈ acc ∨ ∃ d, x = { text := d, cosine_score := mkRat 9 10, ctype := "keyword_match" } := by
  unfold keywordSection at hx
  split at hx
  · exact Or.inl hx
  · refine foldl_mem _
      (fun x => ∃ d, x = { text := d, cosine_score := mkRat 9 10, ctype := "keyword_match" })
      (fun acc d x hx => ?_) docs acc x hx
    split at hx
    · rcases addMatch_mem _ _ _ _ _ hx with h | h
      · exact Or.inl h
      · exact Or.inr ⟨_, h⟩
    · exact Or.inl hx

end GPayRag

namespace GPayRag

/-- `addMatch` preserves duplicate-freedom of the candidate texts. -/
theorem addMatch_nodup (tag : String) (sc : ℚ) (d : Str) (acc : List Candidate)
    (h : (acc.map (fun c => c.text)).Nodup) :
    ((addMatch tag sc d acc).map (fun c => c.text)).Nodup := by
  unfold addMatch
  split
  · exact h
  · rename_i hdup
    rw [List.map_append]
    refine List.Nodup.append h (by simp) ?_
    intro a ha hb
    simp only [List.map_cons, List.map_nil, List.mem_singleton] at hb
    subst hb
    obtain ⟨c, hc, he⟩ := List.mem_map.mp ha
    exact hdup (List.any_eq_true.mpr ⟨c, hc, by simp [he]⟩)

/-- A fold whose step preserves text duplicate-freedom preserves it. -/
theorem foldl_nodup {β : Type} (f : List Candidate → β → List Candidate)
    (hf : ∀ acc b, (acc.map (fun c => c.text)).Nodup →
      ((f acc b).map (fun c => c.text)).Nodup) :
    ∀ (l : List β) (acc : List Candidate),
      (acc.map (fun c => c.text)).Nodup → ((l.foldl f acc).map (fun c => c.text)).Nodup := by
  intro l
  induction l with
  | nil => exact fun acc h => h
  | cons b bs ih => exact fun acc h => ih (f acc b) (hf acc b h)

/-- The UPI section preserves text duplicate-freedom. -/
theorem upiSection_nodup (us : List Str) (docs : List Str) (acc : List Candidate)
    (h : (acc.map (fun c => c.text)).Nodup) :
    ((upiSection us docs acc).map (fun c => c.text)).Nodup := by
  unfold upiSection
  split
  · exact h
  · refine foldl_nodup _ (fun acc d hh => ?_) docs acc h
    split
    · exact addMatch_nodup _ _ _ _ hh
    · exact hh

/-- The amount section preserves text duplicate-freedom. -/
theorem amountSection_nodup (amts : List Str) (docs : List Str) (acc : List Candidate)
    (h : (acc.map (fun c => c.text)).Nodup) :
    ((amountSection amts docs acc).map (fun c => c.text)).Nodup := by
  unfold amountSection
  refine foldl_nodup _ (fun acc a hh => ?_) amts acc h
  dsimp only
  split
  · split
    · refine foldl_nodup _ (fun acc d hh => ?_) docs acc hh
      split
      · exact addMatch_nodup _ _ _ _ hh
      · exact hh
    · exact hh
  · exact hh

/-- The keyword section preserves text duplicate-freedom. -/
theorem keywordSection_nodup (kws : List Str) (docs : List Str) (acc : List Candidate)
    (h : (acc.map (fun c => c.text)).Nodup) :
    ((keywordSection kws docs acc).map (fun c => c.text)).Nodup := by
  unfold keywordSection
  split
  · exact h
  · refine foldl_nodup _ (fun acc d hh => ?_) docs acc h
    split
    · exact addMatch_nodup _ _ _ _ hh
    · exact hh

/-- After `addMatch`, some candidate carries the added text. -/
theorem addMatch_creates (tag : String) (sc : ℚ) (d : Str) (acc : List Candidate) :
    ∃ c ∈ addMatch tag sc d acc, c.text = d := by
  unfold addMatch
  split
  · rename_i hdup
    obtain ⟨m, hm, he⟩ := List.any_eq_true.mp hdup
    exact ⟨m, hm, by simpa using he⟩
  · exact ⟨{ text := d, cosine_score := sc, ctype := tag }, by simp, rfl⟩

/-- The UPI-section fold produces a candidate with text `d₀` whenever the
    accumulator already has one or `d₀` is a matching document. -/
theorem upiFold_creates (us : List Str) (d₀ : Str)
    (hcond : (us.any (fun u => listSubstr u d₀)) = true) :
    ∀ (docs : List Str) (acc : List Candidate),
      ((∃ c ∈ acc, c.text = d₀) ∨ d₀ ∈ docs) →
      ∃ c ∈ docs.foldl
        (fun acc d =>
          if us.any (fun u => listSubstr u d) then addMatch "exact_id_match" 1 d acc else acc)
        acc, c.text = d₀ := by
  intro docs
  induction docs with
  | nil =>
    intro acc h
    rcases h with h | h
    · exact h
    · cases h
  | cons d ds ih =>
    intro acc h
    rw [List.foldl_cons]
    rcases h with ⟨c, hc, ht⟩ | hmem
    · refine ih _ (Or.inl ?_)
      have hext : ∃ t, (if us.any (fun u => listSubstr u d)
          then addMatch "exact_id_match" 1 d acc else acc) = acc ++ t := by
        split
        · exact addMatch_extends _ _ _ _
        · exact ⟨[], by simp⟩
      obtain ⟨t, hts⟩ := hext
      exact ⟨c, by rw [hts]; exact List.mem_append_left _ hc, ht⟩
    · rcases List.mem_cons.mp hmem with he | hds
      · subst he
        refine ih _ (Or.inl ?_)
        rw [if_pos hcond]
        exact addMatch_creates _ _ _ _
      · exact ih _ (Or.inr hds)

/-- `addMatch` grows the accumulator by at most one. -/
theorem addMatch_length (tag : String) (sc : ℚ) (d : Str) (acc : List Candidate) :
    (addMatch tag sc d acc).length ≤ acc.length + 1 := by
  unfold addMatch
  split
  · exact Nat.le_succ _
  · simp

/-- The UPI-section fold adds at most one candidate per matching document. -/
theorem upiFold_length (us : List Str) :
    ∀ (docs : List Str) (acc : List Candidate),
      (docs.foldl
        (fun acc d =>
          if us.any (fun u => listSubstr u d) then addMatch "exact_id_match" 1 d acc else acc)
        acc).length
      ≤ acc.length + (docs.filter (fun d => us.any (fun u => listSubstr u d))).length := by
  intro docs
  induction docs with
  | nil => exact fun acc => by simp
  | cons d ds ih =>
    intro acc
    rw [List.foldl_cons]
    by_cases hc : (us.any (fun u => listSubstr u d)) = true
    · rw [if_pos hc]
      calc (ds.foldl _ (addMatch "exact_id_match" 1 d acc)).length
          ≤ (addMatch "exact_id_match" 1 d acc).length
            + (ds.filter (fun d => us.any (fun u => listSubstr u d))).length := ih _
        _ ≤ acc.length + 1
            + (ds.filter (fun d => us.any (fun u => listSubstr u d))).length :=
            Nat.add_le_add_right (addMatch_length _ _ _ _) _
        _ = acc.length + ((d :: ds).filter (fun d => us.any (fun u => listSubstr u d))).length := by
            rw [List.filter_cons, if_pos hc]
            simp [Nat.add_comm, Nat.add_assoc, Nat.add_left_comm]
    · rw [if_neg hc]
      calc (ds.foldl _ acc).length
          ≤ acc.length + (ds.filter (fun d => us.any (fun u => listSubstr u d))).length := ih _
        _ = acc.length + ((d :: ds).filter (fun d => us.any (fun u => listSubstr u d))).length := by
            rw [List.filter_cons, if_neg hc]

/-- Everything `dedupFirst` keeps comes from its input. -/
theorem dedupFirst_subset (l : List Candidate) :
    ∀ (seen : List Str) (c : Candidate), c ∈ dedupFirst l seen → c ∈ l := by
  induction l with
  | nil => intro seen c h; cases h
  | cons a as ih =>
    intro seen c h
    unfold dedupFirst at h
    split at h
    · exact List.mem_cons_of_mem _ (ih _ c h)
    · rcases List.mem_cons.mp h with h | h
      · exact h ▸ List.mem_cons_self _ _
      · exact List.mem_cons_of_mem _ (ih _ c h)

/-- `dedupFirst` keeps a duplicate-free unseen block intact and only filters
    the remainder. -/
theorem dedupFirst_append (l₁ : List Candidate) :
    ∀ (l₂ : List Candidate) (seen : List Str),
      (l₁.map (fun c => c.text)).Nodup →
      (∀ c ∈ l₁, seen.contains c.text = false) →
      ∃ r, dedupFirst (l₁ ++ l₂) seen = l₁ ++ r ∧ ∀ c ∈ r, c ∈ l₂ := by
  induction l₁ with
  | nil =>
    intro l₂ seen _ _
    exact ⟨dedupFirst l₂ seen, rfl, fun c h => dedupFirst_subset _ _ _ h⟩
  | cons a as ih =>
    intro l₂ seen hnd hseen
    rw [List.cons_append]
    unfold dedupFirst
    rw [hseen a (List.mem_cons_self _ _)]
    simp only [Bool.false_eq_true, if_false]
    rw [List.map_cons] at hnd
    obtain ⟨hnotin, hndtail⟩ := List.nodup_cons.mp hnd
    have hseen2 : ∀ c ∈ as, (a.text :: seen).contains c.text = false := by
      intro c hc
      have hne : ¬ (c.text == a.text) = true := by
        intro hbe
        exact hnotin (by
          rw [← (by simpa using hbe : c.text = a.text)]
          exact List.mem_map.mpr ⟨c, hc, rfl⟩)
      have hs : seen.contains c.text = false := hseen c (List.mem_cons_of_mem _ hc)
      show (c.text == a.text || seen.contains c.text) = false
      rw [hs, Bool.or_false]
      exact Bool.eq_false_iff.mpr hne
    obtain ⟨r, hr, hsub⟩ := ih l₂ (a.text :: seen) hndtail hseen2
    exact ⟨r, by rw [hr, List.cons_append], hsub⟩

end GPayRag

namespace GPayRag

/-- Claim C4 as amended: the exact-ID extractor matches numeric tokens of
    exactly 12 digits (not 12 or more). For every query one of whose
    extracted 12-digit tokens appears as a substring of exactly one chunk —
    provided at most `TOP_K + 3` chunks contain extracted tokens, so the
    match is not evicted by the final truncation — `retrieve` includes that
    chunk tagged "exact_id_match" with score 1.0 and places it ahead of every
    candidate tagged "semantic", for every faiss search result (in
    particular when the top-K search does not return that chunk). -/
theorem c4_exact_id_priority (sr : List (Int × ℚ)) (query : Str) (docs : List Str)
    (u d₀ : Str)
    (hu : u ∈ upiFindAll query)
    (hunique : docs.filter (fun d => listSubstr u d) = [d₀])
    (hbound : (docs.filter (fun d =>
      (upiFindAll query).any (fun v => listSubstr v d))).length ≤ TOP_K + 3)
    (hfaiss : ∀ x ∈ sr, x.1 = -1 ∨ (0 ≤ x.1 ∧ x.1 < (docs.length : Int))) :
    ∃ (res : List Candidate) (i : Nat), retrievePy sr query docs = some res ∧
      res[i]? = some { text := d₀, cosine_score := 1, ctype := "exact_id_match" } ∧
      ∀ (j : Nat) (c : Candidate), res[j]? = some c → c.ctype = "semantic" → i < j := by
  have hd0 : d₀ ∈ docs.filter (fun d => listSubstr u d) := by
    rw [hunique]
    exact List.mem_cons_self _ _
  have hd0mem : d₀ ∈ docs := List.mem_of_mem_filter hd0
  have hd0sub : listSubstr u d₀ = true := List.of_mem_filter hd0
  have hne : docs ≠ [] := by
    intro h
    rw [h] at hunique
    simp at hunique
  have hcond : ((upiFindAll query).any (fun v => listSubstr v d₀)) = true :=
    List.any_eq_true.mpr ⟨u, hu, hd0sub⟩
  have husne : upiFindAll query ≠ [] := by
    intro h
    rw [h] at hu
    cases hu
  have hus : (upiFindAll query).isEmpty = false := by
    cases hq : upiFindAll query with
    | nil => exact absurd hq husne
    | cons a l => rfl
  obtain ⟨sem, hsem⟩ := semanticLoop_total docs hne sr hfaiss
  have hres : retrievePy sr query docs
      = some ((dedupFirst ((keywordSection (keywordFindAll query) docs
          (amountSection (amountFindAll query) docs
            (upiSection (upiFindAll query) docs []))) ++ sem) []).take (TOP_K + 3)) := by
    unfold retrievePy
    rw [hsem]
  obtain ⟨c, hc1, htext⟩ : ∃ c ∈ upiSection (upiFindAll query) docs [], c.text = d₀ := by
    unfold upiSection
    simp only [hus, Bool.false_eq_true, if_false]
    exact upiFold_creates _ d₀ hcond docs [] (Or.inr hd0mem)
  have hcval : c = { text := d₀, cosine_score := 1, ctype := "exact_id_match" } := by
    rcases upiSection_mem _ _ _ c hc1 with h | ⟨d, hd⟩
    · cases h
    · subst hd
      have hdd : d = d₀ := htext
      rw [hdd]
  obtain ⟨⟨i, hi⟩, hget⟩ := List.get_of_mem (hcval ▸ hc1)
  have hlen1 : (upiSection (upiFindAll query) docs []).length ≤ TOP_K + 3 := by
    unfold upiSection
    simp only [hus, Bool.false_eq_true, if_false]
    calc (docs.foldl (fun acc d => if (upiFindAll query).any (fun v => listSubstr v d)
            then addMatch "exact_id_match" 1 d acc else acc) []).length
        ≤ ([] : List Candidate).length + (docs.filter (fun d =>
            (upiFindAll query).any (fun v => listSubstr v d))).length :=
          upiFold_length _ docs []
      _ ≤ TOP_K + 3 := by simpa using hbound
  obtain ⟨t1, ht1⟩ := amountSection_extends (amountFindAll query) docs
    (upiSection (upiFindAll query) docs [])
  obtain ⟨t2, ht2⟩ := keywordSection_extends (keywordFindAll query) docs
    (amountSection (amountFindAll query) docs (upiSection (upiFindAll query) docs []))
  have he3 : keywordSection (keywordFindAll query) docs
      (amountSection (amountFindAll query) docs (upiSection (upiFindAll query) docs []))
      = upiSection (upiFindAll query) docs [] ++ (t1 ++ t2) := by
    rw [ht2, ht1, List.append_assoc]
  have hnd : ((keywordSection (keywordFindAll query) docs
      (amountSection (amountFindAll query) docs
        (upiSection (upiFindAll query) docs []))).map (fun c => c.text)).Nodup :=
    keywordSection_nodup _ _ _
      (amountSection_nodup _ _ _ (upiSection_nodup _ _ _ (by simp)))
  obtain ⟨r, hr, hrsub⟩ := dedupFirst_append
    (keywordSection (keywordFindAll query) docs
      (amountSection (amountFindAll query) docs (upiSection (upiFindAll query) docs [])))
    sem [] hnd (fun c _ => rfl)
  rw [hr] at hres
  refine ⟨_, i, hres, ?_, ?_⟩
  · rw [List.getElem?_take, if_pos (Nat.lt_of_lt_of_le hi hlen1)]
    rw [he3, List.append_assoc, List.getElem?_append, if_pos hi]
    rw [List.getElem?_eq_getElem hi]
    exact congrArg some (by simpa using hget)
  · intro j cj hj hty
    by_contra hij
    push_neg at hij
    have hjlt : j < (upiSection (upiFindAll query) docs []).length :=
      Nat.lt_of_le_of_lt hij hi
    have hj28 : j < TOP_K + 3 := Nat.lt_of_lt_of_le hjlt hlen1
    rw [List.getElem?_take, if_pos hj28] at hj
    rw [he3, List.append_assoc, List.getElem?_append, if_pos hjlt] at hj
    have hmemj : cj ∈ upiSection (upiFindAll query) docs [] := by
      obtain ⟨hlt, hvv⟩ := List.getElem?_eq_some.mp hj
      exact hvv ▸ List.getElem_mem hlt
    rcases upiSection_mem _ _ _ cj hmemj with h | ⟨d, hd⟩
    · cases h
    · rw [hd] at hty
      have heq : ("exact_id_match" : String) = "semantic" := hty
      exact absurd heq (by decide)

/-- Witness for C4: the token 123456789012 appears in one of two chunks and
    the faiss search row returns only the other chunk. -/
theorem c4_exact_id_priority_witness :
    ∃ (res : List Candidate) (i : Nat),
      retrievePy [((1 : Int), (0 : ℚ))] ("find 123456789012 now".toList)
          [("other doc yes".toList), ("txn 123456789012 done".toList)] = some res ∧
      res[i]? = some { text := ("txn 123456789012 done".toList), cosine_score := 1,
                       ctype := "exact_id_match" } ∧
      ∀ (j : Nat) (c : Candidate), res[j]? = some c → c.ctype = "semantic" → i < j :=
  c4_exact_id_priority [((1 : Int), (0 : ℚ))] ("find 123456789012 now".toList)
    [("other doc yes".toList), ("txn 123456789012 done".toList)]
    ("123456789012".toList) ("txn 123456789012 done".toList)
    (by decide) (by decide) (by decide) (by decide)

end GPayRag

namespace GPayRag

/-- Claim C4 counterexample: a 13-digit numeric token is not matched by the
    exact-ID extractor (the pattern is exactly twelve digits between word
    boundaries): for the query "1234567890123", whose token appears as a
    substring of exactly one chunk, retrieve returns that chunk tagged
    "amount_match" — no candidate is tagged "exact_id_match" — so the
    claim's "numeric token of 12 or more digits" fails as stated. -/
theorem c4_thirteen_digit_counterexample :
    retrievePy [] ("1234567890123".toList) [("UPI 1234567890123 x".toList)]
      = some [{ text := ("UPI 1234567890123 x".toList), cosine_score := mkRat 19 20,
                ctype := "amount_match" }] ∧
    upiFindAll ("1234567890123".toList) = [] := by
  exact ⟨by decide, by decide⟩

end GPayRag
